import Mathlib

/-!
# The Mebus 06181 protocol of pilight

A shallow embedding of `libs/pilight/protocols/433.92/mebus_06181.c`: the frame
validator (`validate`), the bit extraction (`fillBinary`), the checksum
(`validateChecksum`), the decoder (`parseCode`), the settings list it scans, the
ingestion of a configuration into that list (`checkValues`) and its teardown (`gc`).

Conventions of the embedding.

* C `int` values are `Int`; no operation of this file can overflow (the largest
  intermediate value is a sum of eight nibbles), so no wrap-around is modelled.
* C `double` values are exact rationals (`ℚ`).
* An `int` array is a function `Nat → Int` from index to content.
* The module's globals (`settings` and the protocol object `mebus_06181`) form an
  explicit `State` that the operations receive and return.
* Constants of the pilight core that the file uses but does not define
  (`PULSE_DIV`, `EPSILON`) are parameters of the operations that use them.
* The `settings` linked list is a `List settings_t` with the head of the list first,
  which is the order in which the code scans it.
-/

namespace Mebus06181

/-! ## Constants -/

def PULSE_MULTIPLIER : Int := 12

def MIN_PULSE_LENGTH : Int := 205

def AVG_PULSE_LENGTH : Int := 250

def MAX_PULSE_LENGTH : Int := 295

def MIN_RAW_LENGTH : Nat := 74

def MAX_RAW_LENGTH : Nat := 74

def RAW_LENGTH : Nat := 74

def ID_FIRST_BIT : Nat := 0

def ID_LAST_BIT : Nat := 3

def CHANNEL_FIRST_BIT : Nat := 4

def CHANNEL_LAST_BIT : Nat := 5

def TEMPERATURE_FIRST_BIT : Nat := 12

def TEMPERATURE_LAST_BIT : Nat := 22

def TEMPERATURE_SIGN_BIT : Nat := 23

def HUMIDITY_LOW_BYTE_FIRST_BIT : Nat := 24

def HUMIDITY_LOW_BYTE_LAST_BIT : Nat := 27

def HUMIDITY_HIGH_BYTE_FIRST_BIT : Nat := 28

def HUMIDITY_HIGH_BYTE_LAST_BIT : Nat := 31

def CHECKSUM_FIRST_BIT : Nat := 32

def CHECKSUM_LAST_BIT : Nat := 35

/-! ## Data model -/

/-- One node of the `settings` list: `struct settings_t` without its `next`
pointer (the list structure is the Lean list holding the nodes). -/
structure settings_t where
  id : ℚ
  channel : ℚ
  temp : ℚ
  humi : ℚ
deriving DecidableEq

/-- Modelled from the spec: the JSON object that `parseCode` builds with
`json_mkobject`, `json_mknumber` and `json_append_member` (pilight's `json.c`, not
part of the protocol file). The spec describes it as a reading with the four named
numeric fields id, channel, temperature and humidity; the number of decimals passed
to `json_mknumber` (0, 0, 1, 1) only concerns formatting and is not kept. -/
structure SensorReading where
  id : Int
  channel : Int
  temperature : ℚ
  humidity : ℚ
deriving DecidableEq

/-- The fields of `struct protocol_t` that the protocol file reads or writes after
initialisation: the captured pulse train and the message. -/
structure protocol_t where
  rawlen : Nat
  raw : Nat → Int
  message : Option SensorReading

/-- The globals of the module: the head of the `settings` list (the list is in scan
order, head first) and the protocol object `mebus_06181`. -/
structure State where
  settings : List settings_t
  mebus_06181 : protocol_t

/-- Modelled from the spec: a node of the JSON tree that `checkValues` receives
(`JsonNode` of pilight's `json.h`, not part of the protocol file), reduced to what
`checkValues` reads: the key of the node (empty for an element of an array), whether its
tag is `JSON_NUMBER`, its `number_`, and its children in order. The spec describes the
tree as a configuration record with an identity/channel pair and optional numeric
`temperature-offset` and `humidity-offset` fields. -/
inductive JsonNode where
  | node (key : String) (isNumber : Bool) (number_ : ℚ) (children : List JsonNode)

/-- The `key` of a node. -/
def JsonNode.key : JsonNode → String
  | .node k _ _ _ => k

/-- Whether the tag of a node is `JSON_NUMBER`. -/
def JsonNode.isNumber : JsonNode → Bool
  | .node _ b _ _ => b

/-- The `number_` of a node. -/
def JsonNode.number_ : JsonNode → ℚ
  | .node _ _ n _ => n

/-- The children of a node, from `json_first_child` along the `next` pointers. -/
def JsonNode.children : JsonNode → List JsonNode
  | .node _ _ _ c => c

/-- Modelled from the spec: `json_find_member` of pilight's `json.c` (not part of the
protocol file): the first child with the given key, if there is one. The node is taken
to be an object. -/
def json_find_member (object : JsonNode) (name : String) : Option JsonNode :=
  object.children.find? (fun m => decide (m.key = name))

/-- Modelled from the spec: `json_find_number` of pilight's `json.c` (not part of the
protocol file): the `number_` of the member with the given key when there is one and it
is a number, which is how an optional numeric field of the configuration is read. -/
def json_find_number (object : JsonNode) (name : String) : Option ℚ :=
  match json_find_member object name with
  | some m => if m.isNumber then some m.number_ else none
  | none => none

/-! ## Core primitives -/

/-- Modelled from the spec: `binToDec` of the pilight core (`core/binary.c`, included
through `binary.h`, not part of the protocol file). The spec names two extraction
primitives and describes the reversed one against the normal one: the normal extraction
is a least-significant-first encoding, and in the reversed one the bit at the first
position is the highest-order bit of the value, not the lowest. `binToDec` is the normal
one: position `s` has weight 1 and position `e` has weight `2 ^ (e - s)`. Where the spec
calls the temperature field most-significant-first it departs from this; the frame
documented in the protocol file (`1110 01 10110 1 11110100000 0 0001 1010 0110`) settles
the order: its checksum nibble matches its eight leading nibbles when the first position
is the lowest-order bit, and does not when it is the highest-order bit. -/
def binToDec (binary : Nat → Int) (s e : Nat) : Int :=
  ((List.range (e + 1 - s)).map (fun k => binary (s + k) * 2 ^ k)).sum

/-- Modelled from the spec: `binToDecRev` of the pilight core (`core/binary.c`, not
part of the protocol file), the reversed extraction: the bit at position `s` is the
highest-order bit of the value (weight `2 ^ (e - s)`), position `e` has weight 1. -/
def binToDecRev (binary : Nat → Int) (s e : Nat) : Int :=
  ((List.range (e + 1 - s)).map (fun k => binary (s + k) * 2 ^ (e - s - k))).sum

/-! ## The operations of the protocol file -/

/-- The function `validate`: 0 when the train has `RAW_LENGTH` pulses and its last pulse lies
between `MIN_PULSE_LENGTH*PULSE_DIV` and `MAX_PULSE_LENGTH*PULSE_DIV`, else -1. The
state is returned as the function leaves it. -/
def validate (PULSE_DIV : Int) (st : State) : Int × State :=
  if st.mebus_06181.rawlen = RAW_LENGTH then
    if st.mebus_06181.raw (st.mebus_06181.rawlen - 1) ≥ MIN_PULSE_LENGTH * PULSE_DIV ∧
        st.mebus_06181.raw (st.mebus_06181.rawlen - 1) ≤ MAX_PULSE_LENGTH * PULSE_DIV then
      (0, st)
    else
      (-1, st)
  else
    (-1, st)

/-- The assignment `binary[i] = v`. -/
def setBinary (binary : Nat → Int) (i : Nat) (v : Int) : Nat → Int :=
  fun j => if j = i then v else binary j

/-- What `fillBinary` leaves behind: the array, the final value of `i`, and the
indices it has assigned, in the order of the assignments. -/
structure Filled where
  binary : Nat → Int
  i : Nat
  written : List Nat

/-- The loop `for(x=1; x<rawlen; x+=2)` of `fillBinary`, from the loop variable `x`
and the state `acc`. The first argument bounds the number of iterations. -/
def fillBinaryLoop (p : protocol_t) : Nat → Nat → Filled → Filled
  | 0, _, acc => acc
  | fuel + 1, x, acc =>
    if x < p.rawlen then
      if p.raw x > AVG_PULSE_LENGTH * PULSE_MULTIPLIER then
        fillBinaryLoop p fuel (x + 2)
          ⟨setBinary acc.binary acc.i 1, acc.i + 1, acc.written ++ [acc.i]⟩
      else
        fillBinaryLoop p fuel (x + 2)
          ⟨setBinary acc.binary acc.i 0, acc.i + 1, acc.written ++ [acc.i]⟩
    else
      acc

/-- The function `fillBinary`: `i = 0`, then the loop from `x = 1`. The loop leaves
after `rawlen / 2` iterations, within the bound `rawlen` given to it (`fillBinary_fuel`). -/
def fillBinary (p : protocol_t) (binary : Nat → Int) : Filled :=
  fillBinaryLoop p p.rawlen 1 ⟨binary, 0, []⟩

/-- The function `validateChecksum`: 1 when the low four bits of the sum of the eight leading
nibbles equal the checksum nibble, else 0. -/
def validateChecksum (binary : Nat → Int) : Int :=
  let checksum := binToDec binary CHECKSUM_FIRST_BIT CHECKSUM_LAST_BIT
  let sum := (List.range 8).foldl (fun sum i => sum + binToDec binary (i * 4) (i * 4 + 3)) 0
  if Int.land sum 0x0F = checksum then 1 else 0

/-- The `while(tmp)` scan of `parseCode`: the offsets of the first node whose id and
channel are within `EPSILON` of the decoded ones are added, and the scan stops. -/
def applySettings (EPSILON : ℚ) (id channel : Int) :
    List settings_t → ℚ × ℚ → ℚ × ℚ
  | [], th => th
  | tmp :: next, th =>
    if |tmp.id - id| < EPSILON ∧ |tmp.channel - channel| < EPSILON then
      (th.1 + tmp.temp, th.2 + tmp.humi)
    else
      applySettings EPSILON id channel next th

/-- The function `parseCode`. The argument `binary` is the content of the local array
`int binary[RAW_LENGTH/2]` at entry, which C leaves indeterminate. -/
def parseCode (EPSILON : ℚ) (binary : Nat → Int) (st : State) : State :=
  let binary := (fillBinary st.mebus_06181 binary).binary
  if validateChecksum binary = 0 then
    st
  else
    let id := binToDecRev binary 0 3
    let channel := binToDecRev binary 4 5
    let temperature : ℚ := (binToDec binary TEMPERATURE_FIRST_BIT TEMPERATURE_LAST_BIT : Int)
    let temperature := if binary TEMPERATURE_SIGN_BIT = 1 then temperature - 2048 else temperature
    let temperature := temperature / 10
    let humidity : ℚ :=
      10 * (binToDec binary HUMIDITY_HIGH_BYTE_FIRST_BIT HUMIDITY_HIGH_BYTE_LAST_BIT : Int)
    let humidity := humidity +
      (binToDec binary HUMIDITY_LOW_BYTE_FIRST_BIT HUMIDITY_LOW_BYTE_LAST_BIT : Int)
    let th := applySettings EPSILON id channel st.settings (temperature, humidity)
    { st with mebus_06181 :=
        { st.mebus_06181 with message := some ⟨id, channel, th.1, th.2⟩ } }

/-- The two nested `while` loops of `checkValues` over the children of the member
`id` and over their children: `id` and `channel` start at -1 and take the `number_` of
every grandchild whose key is `id`, respectively `channel`, so the last one stays. -/
def checkValuesKey (jid : JsonNode) : ℚ × ℚ :=
  jid.children.foldl
    (fun acc jchild =>
      jchild.children.foldl
        (fun acc jchild1 =>
          let acc := if jchild1.key = "id" then (jchild1.number_, acc.2) else acc
          if jchild1.key = "channel" then (acc.1, jchild1.number_) else acc)
        acc)
    (-1, -1)

/-- The `while(tmp)` scan of `checkValues`: the value of `match` after it, 1 when a
node has id and channel within `EPSILON` of the given ones and 0 otherwise. -/
def settingsMatch (EPSILON : ℚ) (id channel : ℚ) : List settings_t → Int
  | [] => 0
  | tmp :: next =>
    if |tmp.id - id| < EPSILON ∧ |tmp.channel - channel| < EPSILON then 1
    else settingsMatch EPSILON id channel next

/-- The function `checkValues`. Without a member `id` nothing happens. Otherwise the
key is read, the settings are scanned, and when no node matches a new node with the
offsets of the configuration (0 where one is not given) becomes the head of the list:
`snode->next = settings; settings = snode`. The allocation is taken to succeed. -/
def checkValues (EPSILON : ℚ) (jvalues : JsonNode) (st : State) : Int × State :=
  match json_find_member jvalues "id" with
  | some jid =>
    let id := (checkValuesKey jid).1
    let channel := (checkValuesKey jid).2
    if settingsMatch EPSILON id channel st.settings = 0 then
      let temp : ℚ :=
        match json_find_number jvalues "temperature-offset" with
        | some v => v
        | none => 0
      let humi : ℚ :=
        match json_find_number jvalues "humidity-offset" with
        | some v => v
        | none => 0
      (0, { st with settings := ⟨id, channel, temp, humi⟩ :: st.settings })
    else
      (0, st)
  | none => (0, st)

/-- The loop `while(settings)` of `gc`, which frees the head and moves to the next
node: the value of `settings` after it. -/
def gcLoop : List settings_t → List settings_t
  | [] => []
  | _ :: next => gcLoop next

/-- The function `gc`. After the loop `settings` is `NULL`, so the final
`if(settings != NULL)` frees nothing. -/
def gc (st : State) : State :=
  { st with settings := gcLoop st.settings }

/-! ## Derived notions used in the statements -/

/-- The bit sequence `parseCode` works on: the local array after `fillBinary`. -/
def extractedBits (st : State) (binary : Nat → Int) : Nat → Int :=
  (fillBinary st.mebus_06181 binary).binary

/-- The sum of the eight leading nibbles, bit groups [0-3], [4-7], ..., [28-31], each
read with `binToDec`: the value of `sum` after the loop of `validateChecksum`. -/
def nibbleSum (b : Nat → Int) : Int :=
  binToDec b 0 3 + binToDec b 4 7 + binToDec b 8 11 + binToDec b 12 15 +
    binToDec b 16 19 + binToDec b 20 23 + binToDec b 24 27 + binToDec b 28 31

/-- The value of `temperature` in `parseCode` before the settings are scanned. -/
def rawTemperature (b : Nat → Int) : ℚ :=
  (if b 23 = 1 then ((binToDec b 12 22 : Int) : ℚ) - 2048 else ((binToDec b 12 22 : Int) : ℚ)) / 10

/-- The value of `humidity` in `parseCode` before the settings are scanned. -/
def rawHumidity (b : Nat → Int) : ℚ :=
  10 * ((binToDec b 28 31 : Int) : ℚ) + ((binToDec b 24 27 : Int) : ℚ)

/-- The state after the assignment of a new object to `mebus_06181->message`. -/
def withMessage (st : State) (r : SensorReading) : State :=
  { st with mebus_06181 := { st.mebus_06181 with message := some r } }

/-- The first node of the settings list, in scan order, whose id and channel are both
within `EPSILON` of the given ones. -/
def firstMatch (EPSILON : ℚ) (id channel : Int) (settings : List settings_t) :
    Option settings_t :=
  settings.find? (fun tmp => decide (|tmp.id - id| < EPSILON ∧ |tmp.channel - channel| < EPSILON))

/-- The offsets of the first matching node of the settings list, or (0, 0) when no node
matches. -/
def matchedOffsets (EPSILON : ℚ) (id channel : Int) (settings : List settings_t) : ℚ × ℚ :=
  match firstMatch EPSILON id channel settings with
  | some r => (r.temp, r.humi)
  | none => (0, 0)

/-- The scan of the settings list for a key given as two rationals: the first node, in
scan order, whose id and channel are both within `EPSILON` of the key. This is the scan
of `parseCode` and of `checkValues`, and the `lookup` of the spec. -/
def scanMatch (EPSILON : ℚ) (id channel : ℚ) (settings : List settings_t) :
    Option settings_t :=
  settings.find? (fun tmp => decide (|tmp.id - id| < EPSILON ∧ |tmp.channel - channel| < EPSILON))

/-- The offsets that a lookup of the key returns, if a node matches. -/
def lookup (EPSILON : ℚ) (id channel : ℚ) (settings : List settings_t) : Option (ℚ × ℚ) :=
  (scanMatch EPSILON id channel settings).map (fun r => (r.temp, r.humi))

/-- Whether two nodes are for the same key: ids and channels both within `EPSILON`. -/
def sameKey (EPSILON : ℚ) (r1 r2 : settings_t) : Prop :=
  |r1.id - r2.id| < EPSILON ∧ |r1.channel - r2.channel| < EPSILON

/-- A call of one of the two operations that change the settings list. -/
inductive Call where
  | checkValues (jvalues : JsonNode)
  | gc

/-- The state after a sequence of calls, the first call first. -/
def runCalls (EPSILON : ℚ) : List Call → State → State
  | [], st => st
  | Call.checkValues jvalues :: rest, st => runCalls EPSILON rest (checkValues EPSILON jvalues st).2
  | Call.gc :: rest, st => runCalls EPSILON rest (gc st)

/-! ## Test data -/

/-- The pulse train of a bit sequence: marks of 500, a space of 4000 for a 1 and of
2000 for a 0, and `last` as the pulse at index 73. -/
def trainOf (bits : List Int) (last : Int) : protocol_t :=
  { rawlen := 74
    raw := fun x =>
      if x = 73 then last
      else if x % 2 = 1 then (if bits.getD (x / 2) 0 = 1 then 4000 else 2000)
      else 500
    message := none }

/-- A frame with id 3, channel 1, temperature field 150, sign 0, humidity nibbles 5
(low) and 2 (high), and the checksum nibble that fits. -/
def frameReading : List Int :=
  [0,0,1,1, 0,1,0,0, 0,0,0,0, 0,1,1,0, 1,0,0,1, 0,0,0,0, 1,0,1,0, 0,1,0,0, 0,0,1,0, 0]

/-- The module state with the given settings list and the train of `frameReading`. -/
def stateReading (settings : List settings_t) : State :=
  ⟨settings, trainOf frameReading 8000⟩

/-- A frame whose only data bit set is bit 12, the first bit of the temperature field. -/
def frameTemperature : List Int :=
  [0,0,0,0, 0,0,0,0, 0,0,0,0, 1,0,0,0, 0,0,0,0, 0,0,0,0, 0,0,0,0, 0,0,0,0, 1,0,0,0, 0]

/-- The module state with no settings and the train of `frameTemperature`. -/
def stateTemperature : State :=
  ⟨[], trainOf frameTemperature 8000⟩

/-- The frame `frameReading` with bit 32, the first bit of the checksum field, flipped. -/
def frameFlipped : List Int :=
  [0,0,1,1, 0,1,0,0, 0,0,0,0, 0,1,1,0, 1,0,0,1, 0,0,0,0, 1,0,1,0, 0,1,0,0, 1,0,1,0, 0]

/-- The module state with no settings and the train of `frameFlipped`. -/
def stateFlipped : State :=
  ⟨[], trainOf frameFlipped 8000⟩

/-- A frame whose bits 0-3 are 1000, with the checksum nibble that fits. -/
def frameId : List Int :=
  [1,0,0,0, 0,0,0,0, 0,0,0,0, 0,0,0,0, 0,0,0,0, 0,0,0,0, 0,0,0,0, 0,0,0,0, 1,0,0,0, 0]

/-- The module state with no settings and the train of `frameId`. -/
def stateId : State :=
  ⟨[], trainOf frameId 8000⟩

/-- The frame documented in the protocol file, `1110 01 10110 1 11110100000 0 0001 1010
0110`, with a last bit of 0. -/
def frameDocumented : List Int :=
  [1,1,1,0, 0,1,1,0, 1,1,0,1, 1,1,1,1, 0,1,0,0, 0,0,0,0, 0,0,0,1, 1,0,1,0, 0,1,1,0, 0]

/-- The module state with no settings and the train of `frameDocumented` with the given
last pulse. -/
def stateDocumented (last : Int) : State :=
  ⟨[], trainOf frameDocumented last⟩

/-- A configuration with the member `id` holding one pair of `id` and `channel`, followed
by the given further members. -/
def configOf (id channel : ℚ) (members : List JsonNode) : JsonNode :=
  .node "" false 0
    (.node "id" false 0 [.node "" false 0 [.node "id" true id [], .node "channel" true channel []]]
      :: members)

/-- The two members `temperature-offset` and `humidity-offset`. -/
def offsetMembers (t h : ℚ) : List JsonNode :=
  [.node "temperature-offset" true t [], .node "humidity-offset" true h []]

/-- The frame `frameReading` with bit 0, a data bit, flipped. -/
def frameDataFlipped : List Int :=
  [1,0,1,1, 0,1,0,0, 0,0,0,0, 0,1,1,0, 1,0,0,1, 0,0,0,0, 1,0,1,0, 0,1,0,0, 0,0,1,0, 0]

/-- The module state with no settings and the train of `frameDataFlipped`. -/
def stateDataFlipped : State :=
  ⟨[], trainOf frameDataFlipped 8000⟩

/-- Another pulse train of a bit sequence: marks of 900, a space of 5000 for a 1 and of
100 for a 0, and a last pulse of 2000. -/
def trainVariant (bits : List Int) : protocol_t :=
  { rawlen := 74
    raw := fun x =>
      if x = 73 then 2000
      else if x % 2 = 1 then (if bits.getD (x / 2) 0 = 1 then 5000 else 100)
      else 900
    message := none }

/-- A node for the key (3 - 0.000006, 1) with the offsets 1 and 1. -/
def nodeEarlier : settings_t :=
  ⟨3 - 6 / 1000000, 1, 1, 1⟩

/-- A node for the key (3 + 0.000006, 1) with the offsets 2 and 2. -/
def nodeLater : settings_t :=
  ⟨3 + 6 / 1000000, 1, 2, 2⟩

/-- The member `id` of a configuration for the key (3 + 0.000006, 1). -/
def configLaterId : JsonNode :=
  .node "id" false 0
    [.node "" false 0 [.node "id" true (3 + 6 / 1000000) [], .node "channel" true 1 []]]

/-- A configuration for the key (3 + 0.000006, 1) with the offsets 2 and 2. -/
def configLater : JsonNode :=
  .node "" false 0 (configLaterId :: offsetMembers 2 2)

/-! ## The bit extraction loop -/

theorem fillBinaryLoop_step (p : protocol_t) (fuel x : Nat) (acc : Filled) :
    fillBinaryLoop p (fuel + 1) x acc =
      if x < p.rawlen then
        fillBinaryLoop p fuel (x + 2)
          ⟨setBinary acc.binary acc.i
              (if p.raw x > AVG_PULSE_LENGTH * PULSE_MULTIPLIER then 1 else 0),
            acc.i + 1, acc.written ++ [acc.i]⟩
      else acc := by
  simp only [fillBinaryLoop]
  split_ifs <;> rfl

theorem fillBinaryLoop_spec (p : protocol_t) :
    ∀ (fuel x : Nat) (acc : Filled), (p.rawlen + 1 - x) / 2 ≤ fuel →
      (fillBinaryLoop p fuel x acc).i = acc.i + (p.rawlen + 1 - x) / 2 ∧
      (fillBinaryLoop p fuel x acc).written =
        acc.written ++ (List.range ((p.rawlen + 1 - x) / 2)).map (fun k => acc.i + k) ∧
      ∀ j, (fillBinaryLoop p fuel x acc).binary j =
        if acc.i ≤ j ∧ j < acc.i + (p.rawlen + 1 - x) / 2 then
          (if p.raw (x + 2 * (j - acc.i)) > AVG_PULSE_LENGTH * PULSE_MULTIPLIER then 1 else 0)
        else acc.binary j := by
  intro fuel
  induction fuel with
  | zero =>
    intro x acc h
    have hk : (p.rawlen + 1 - x) / 2 = 0 := by omega
    simp only [fillBinaryLoop, hk, List.range_zero, List.map_nil, List.append_nil, Nat.add_zero,
      true_and]
    intro j
    rw [if_neg (by omega)]
  | succ n ih =>
    intro x acc h
    rw [fillBinaryLoop_step]
    by_cases hx : x < p.rawlen
    · have hk : (p.rawlen + 1 - x) / 2 = (p.rawlen + 1 - (x + 2)) / 2 + 1 := by omega
      obtain ⟨h1, h2, h3⟩ := ih (x + 2)
        ⟨setBinary acc.binary acc.i
            (if p.raw x > AVG_PULSE_LENGTH * PULSE_MULTIPLIER then 1 else 0),
          acc.i + 1, acc.written ++ [acc.i]⟩ (by omega)
      rw [if_pos hx, hk]
      refine ⟨by rw [h1]; simp only []; omega, ?_, ?_⟩
      · rw [h2, List.range_succ_eq_map]
        simp [List.map_map, Function.comp_def, Nat.add_assoc, Nat.add_comm 1]
      · intro j
        rw [h3]
        simp only [setBinary]
        by_cases hj : j = acc.i
        · subst hj
          simp
        · by_cases hlt : acc.i + 1 ≤ j ∧ j < acc.i + 1 + (p.rawlen + 1 - (x + 2)) / 2
          · have e : x + 2 + 2 * (j - (acc.i + 1)) = x + 2 * (j - acc.i) := by omega
            have hlt2 : acc.i ≤ j ∧ j < acc.i + ((p.rawlen + 1 - (x + 2)) / 2 + 1) := by omega
            rw [if_pos hlt, if_pos hlt2, e]
          · have hlt2 : ¬ (acc.i ≤ j ∧ j < acc.i + ((p.rawlen + 1 - (x + 2)) / 2 + 1)) := by omega
            rw [if_neg hlt, if_neg hlt2, if_neg hj]
    · have hk : (p.rawlen + 1 - x) / 2 = 0 := by omega
      rw [if_neg hx, hk]
      simp only [List.range_zero, List.map_nil, List.append_nil, Nat.add_zero, true_and]
      intro j
      rw [if_neg (by omega)]

/-- The bound on the iterations is never what ends the loop of `fillBinary`: with any
bound of at least `rawlen / 2` the loop ends by its own condition, with the same result. -/
theorem fillBinary_fuel (p : protocol_t) (binary : Nat → Int) (fuel : Nat)
    (h : p.rawlen / 2 ≤ fuel) :
    fillBinaryLoop p fuel 1 ⟨binary, 0, []⟩ = fillBinary p binary := by
  have hk : (p.rawlen + 1 - 1) / 2 = p.rawlen / 2 := by rw [Nat.add_sub_cancel]
  obtain ⟨a1, a2, a3⟩ := fillBinaryLoop_spec p fuel 1 ⟨binary, 0, []⟩ (by omega)
  obtain ⟨b1, b2, b3⟩ := fillBinaryLoop_spec p p.rawlen 1 ⟨binary, 0, []⟩ (by omega)
  unfold fillBinary
  cases hx : fillBinaryLoop p fuel 1 ⟨binary, 0, []⟩ with
  | mk xb xi xw =>
    cases hy : fillBinaryLoop p p.rawlen 1 ⟨binary, 0, []⟩ with
    | mk yb yi yw =>
      rw [hx] at a1 a2 a3
      rw [hy] at b1 b2 b3
      have e1 : xi = yi := by rw [show xi = _ from a1, show yi = _ from b1]
      have e2 : xw = yw := by rw [show xw = _ from a2, show yw = _ from b2]
      have e3 : xb = yb := by
        funext j
        rw [show xb j = _ from a3 j, show yb j = _ from b3 j]
      rw [e1, e2, e3]

/-- On a train of 74 pulses the loop of `fillBinary` runs 37 times: it assigns the
indices 0..36 in order, each from the pulse at the odd index `2*j+1`. -/
theorem fillBinary_74 (p : protocol_t) (binary : Nat → Int) (h : p.rawlen = 74) :
    (fillBinary p binary).i = 37 ∧
    (fillBinary p binary).written = List.range 37 ∧
    ∀ j, (fillBinary p binary).binary j =
      if j < 37 then
        (if p.raw (2 * j + 1) > AVG_PULSE_LENGTH * PULSE_MULTIPLIER then 1 else 0)
      else binary j := by
  have hs := fillBinaryLoop_spec p p.rawlen 1 ⟨binary, 0, []⟩ (by omega)
  have hk : (p.rawlen + 1 - 1) / 2 = 37 := by omega
  rw [hk] at hs
  obtain ⟨h1, h2, h3⟩ := hs
  refine ⟨by simpa [fillBinary] using h1, by simpa [fillBinary] using h2, ?_⟩
  intro j
  have := h3 j
  simp only [Nat.zero_le, true_and, Nat.zero_add, Nat.sub_zero, Nat.add_comm 1 (2 * j)] at this
  rw [fillBinary, this]

/-- The extracted bit at a position below 37. -/
theorem fillBinary_bit (p : protocol_t) (binary : Nat → Int) (h : p.rawlen = 74)
    (i : Nat) (hi : i < 37) :
    (fillBinary p binary).binary i =
      if p.raw (2 * i + 1) > AVG_PULSE_LENGTH * PULSE_MULTIPLIER then 1 else 0 := by
  rw [(fillBinary_74 p binary h).2.2 i, if_pos hi]

/-- Every extracted bit is 0 or 1. -/
theorem fillBinary_bit_cases (p : protocol_t) (binary : Nat → Int) (h : p.rawlen = 74)
    (i : Nat) (hi : i < 37) :
    (fillBinary p binary).binary i = 0 ∨ (fillBinary p binary).binary i = 1 := by
  rw [fillBinary_bit p binary h i hi]
  split_ifs
  · exact Or.inr rfl
  · exact Or.inl rfl

/-- Every bit `parseCode` works on is 0 or 1. -/
theorem extractedBits_cases (st : State) (binary : Nat → Int)
    (h : st.mebus_06181.rawlen = 74) (i : Nat) (hi : i < 37) :
    extractedBits st binary i = 0 ∨ extractedBits st binary i = 1 :=
  fillBinary_bit_cases st.mebus_06181 binary h i hi

/-! ## The primitives and the decoder, unfolded -/

/-- A nibble read with `binToDec`: the first position has weight 1. -/
theorem binToDec_nibble (b : Nat → Int) (s : Nat) :
    binToDec b s (s + 3) = b s + 2 * b (s + 1) + 4 * b (s + 2) + 8 * b (s + 3) := by
  have h : s + 3 + 1 - s = 4 := by omega
  simp only [binToDec, h]
  simp [List.range_succ]
  ring

/-- A nibble read with `binToDecRev`: the first position has weight 8. -/
theorem binToDecRev_nibble (b : Nat → Int) (s : Nat) :
    binToDecRev b s (s + 3) = 8 * b s + 4 * b (s + 1) + 2 * b (s + 2) + b (s + 3) := by
  have h : s + 3 + 1 - s = 4 := by omega
  have h' : s + 3 - s = 3 := by omega
  simp only [binToDecRev, h, h']
  simp [List.range_succ]
  ring

/-- Two bits read with `binToDecRev`. -/
theorem binToDecRev_pair (b : Nat → Int) (s : Nat) :
    binToDecRev b s (s + 1) = 2 * b s + b (s + 1) := by
  have h : s + 1 + 1 - s = 2 := by omega
  have h' : s + 1 - s = 1 := by omega
  simp only [binToDecRev, h, h']
  simp [List.range_succ]
  ring

/-- The temperature field read with `binToDec`. -/
theorem binToDec_temperature (b : Nat → Int) :
    binToDec b 12 22 = b 12 + 2 * b 13 + 4 * b 14 + 8 * b 15 + 16 * b 16 + 32 * b 17 +
      64 * b 18 + 128 * b 19 + 256 * b 20 + 512 * b 21 + 1024 * b 22 := by
  simp only [binToDec]
  simp [List.range_succ]
  ring

/-- The loop of `validateChecksum` adds up the eight leading nibbles. -/
theorem validateChecksum_eq (b : Nat → Int) :
    validateChecksum b =
      if Int.land (nibbleSum b) 0x0F = binToDec b 32 35 then 1 else 0 := by
  have hr : List.range 8 = [0, 1, 2, 3, 4, 5, 6, 7] := by decide
  simp only [validateChecksum, hr, List.foldl, nibbleSum, CHECKSUM_FIRST_BIT, CHECKSUM_LAST_BIT]
  norm_num

/-- The checksum test returns 0 or 1. -/
theorem validateChecksum_cases (b : Nat → Int) :
    validateChecksum b = 0 ∨ validateChecksum b = 1 := by
  rw [validateChecksum_eq]
  split_ifs
  · exact Or.inr rfl
  · exact Or.inl rfl

/-- On a checksum mismatch `parseCode` returns at once. -/
theorem parseCode_fail (EPSILON : ℚ) (binary : Nat → Int) (st : State)
    (h : validateChecksum (extractedBits st binary) = 0) :
    parseCode EPSILON binary st = st := by
  unfold parseCode
  simp only [extractedBits] at h
  simp only [h, if_true]

/-- The message `parseCode` builds when the checksum fits. -/
theorem parseCode_pass (EPSILON : ℚ) (binary : Nat → Int) (st : State)
    (h : validateChecksum (extractedBits st binary) = 1) :
    parseCode EPSILON binary st =
      withMessage st
        ⟨binToDecRev (extractedBits st binary) 0 3,
         binToDecRev (extractedBits st binary) 4 5,
         (applySettings EPSILON (binToDecRev (extractedBits st binary) 0 3)
           (binToDecRev (extractedBits st binary) 4 5) st.settings
           (rawTemperature (extractedBits st binary), rawHumidity (extractedBits st binary))).1,
         (applySettings EPSILON (binToDecRev (extractedBits st binary) 0 3)
           (binToDecRev (extractedBits st binary) 4 5) st.settings
           (rawTemperature (extractedBits st binary), rawHumidity (extractedBits st binary))).2⟩ := by
  unfold parseCode
  simp only [extractedBits] at h
  have h0 : ¬ validateChecksum (fillBinary st.mebus_06181 binary).binary = 0 := by
    rw [h]; decide
  simp only [h0, if_false, extractedBits, TEMPERATURE_FIRST_BIT, TEMPERATURE_LAST_BIT,
    TEMPERATURE_SIGN_BIT, HUMIDITY_HIGH_BYTE_FIRST_BIT, HUMIDITY_HIGH_BYTE_LAST_BIT,
    HUMIDITY_LOW_BYTE_FIRST_BIT, HUMIDITY_LOW_BYTE_LAST_BIT, rawTemperature, rawHumidity,
    withMessage]

/-! ## The decoder reads bits 0-35 only -/

/-- The primitive `binToDec` reads the positions `s..e` only. -/
theorem binToDec_congr (b c : Nat → Int) (s e : Nat)
    (h : ∀ i, s ≤ i → i ≤ e → b i = c i) : binToDec b s e = binToDec c s e := by
  unfold binToDec
  congr 1
  apply List.map_congr_left
  intro k hk
  rw [h (s + k) (by omega) (by have := List.mem_range.mp hk; omega)]

/-- The primitive `binToDecRev` reads the positions `s..e` only. -/
theorem binToDecRev_congr (b c : Nat → Int) (s e : Nat)
    (h : ∀ i, s ≤ i → i ≤ e → b i = c i) : binToDecRev b s e = binToDecRev c s e := by
  unfold binToDecRev
  congr 1
  apply List.map_congr_left
  intro k hk
  rw [h (s + k) (by omega) (by have := List.mem_range.mp hk; omega)]

/-- The nibble sum reads the positions 0-31 only. -/
theorem nibbleSum_congr (b c : Nat → Int) (h : ∀ i, i < 32 → b i = c i) :
    nibbleSum b = nibbleSum c := by
  unfold nibbleSum
  rw [binToDec_congr b c 0 3 (fun i _ _ => h i (by omega)),
    binToDec_congr b c 4 7 (fun i _ _ => h i (by omega)),
    binToDec_congr b c 8 11 (fun i _ _ => h i (by omega)),
    binToDec_congr b c 12 15 (fun i _ _ => h i (by omega)),
    binToDec_congr b c 16 19 (fun i _ _ => h i (by omega)),
    binToDec_congr b c 20 23 (fun i _ _ => h i (by omega)),
    binToDec_congr b c 24 27 (fun i _ _ => h i (by omega)),
    binToDec_congr b c 28 31 (fun i _ _ => h i (by omega))]

/-- The checksum test reads the positions 0-35 only. -/
theorem validateChecksum_congr (b c : Nat → Int) (h : ∀ i, i < 37 → b i = c i) :
    validateChecksum b = validateChecksum c := by
  rw [validateChecksum_eq, validateChecksum_eq,
    nibbleSum_congr b c (fun i hi => h i (by omega)),
    binToDec_congr b c 32 35 (fun i _ _ => h i (by omega))]

/-- The outcome of `parseCode` is determined by the 37 bits, the settings and the
message before the call. -/
theorem parseCode_message_congr (EPSILON : ℚ) (binary1 binary2 : Nat → Int) (st1 st2 : State)
    (hset : st1.settings = st2.settings)
    (hmsg : st1.mebus_06181.message = st2.mebus_06181.message)
    (hbits : ∀ i, i < 37 → extractedBits st1 binary1 i = extractedBits st2 binary2 i) :
    (parseCode EPSILON binary1 st1).mebus_06181.message =
      (parseCode EPSILON binary2 st2).mebus_06181.message := by
  have hv := validateChecksum_congr _ _ hbits
  rcases validateChecksum_cases (extractedBits st1 binary1) with h0 | h1
  · rw [parseCode_fail EPSILON binary1 st1 h0, parseCode_fail EPSILON binary2 st2 (hv ▸ h0)]
    exact hmsg
  · rw [parseCode_pass EPSILON binary1 st1 h1, parseCode_pass EPSILON binary2 st2 (hv ▸ h1)]
    simp only [withMessage, rawTemperature, rawHumidity]
    rw [hset, hbits 23 (by omega),
      binToDecRev_congr _ _ 0 3 (fun i _ _ => hbits i (by omega)),
      binToDecRev_congr _ _ 4 5 (fun i _ _ => hbits i (by omega)),
      binToDec_congr _ _ 12 22 (fun i _ _ => hbits i (by omega)),
      binToDec_congr _ _ 28 31 (fun i _ _ => hbits i (by omega)),
      binToDec_congr _ _ 24 27 (fun i _ _ => hbits i (by omega))]

/-- The checksum test returns 1 only when the low four bits of the nibble sum equal the
checksum field. -/
theorem validateChecksum_one (b : Nat → Int) (h : validateChecksum b = 1) :
    Int.land (nibbleSum b) 0x0F = binToDec b 32 35 := by
  rw [validateChecksum_eq] at h
  by_contra hc
  rw [if_neg hc] at h
  exact absurd h (by decide)

/-- The temperature field of a bit sequence lies between 0 and 2047. -/
theorem binToDec_temperature_bounds (b : Nat → Int)
    (hb : ∀ i, i < 37 → b i = 0 ∨ b i = 1) :
    0 ≤ binToDec b 12 22 ∧ binToDec b 12 22 ≤ 2047 := by
  have hr : ∀ i, i < 37 → 0 ≤ b i ∧ b i ≤ 1 := by
    intro i hi
    rcases hb i hi with h | h <;> rw [h] <;> decide
  rw [binToDec_temperature]
  have h12 := hr 12 (by omega)
  have h13 := hr 13 (by omega)
  have h14 := hr 14 (by omega)
  have h15 := hr 15 (by omega)
  have h16 := hr 16 (by omega)
  have h17 := hr 17 (by omega)
  have h18 := hr 18 (by omega)
  have h19 := hr 19 (by omega)
  have h20 := hr 20 (by omega)
  have h21 := hr 21 (by omega)
  have h22 := hr 22 (by omega)
  constructor <;> omega

/-! ## The frame validator -/

/-- Claim C1. `validate` returns 0 exactly when the train has 74 pulses and its last
pulse lies between `MIN_PULSE_LENGTH*PULSE_DIV` and `MAX_PULSE_LENGTH*PULSE_DIV`, both
bounds included, and it returns -1 exactly in every other case; the two bounds are
`205*PULSE_DIV` and `295*PULSE_DIV`, which is 6970 and 10030 for a `PULSE_DIV` of 34. -/
theorem validate_iff (PULSE_DIV : Int) (st : State) :
    ((validate PULSE_DIV st).1 = 0 ↔
      (st.mebus_06181.rawlen = 74 ∧
        MIN_PULSE_LENGTH * PULSE_DIV ≤ st.mebus_06181.raw (st.mebus_06181.rawlen - 1) ∧
        st.mebus_06181.raw (st.mebus_06181.rawlen - 1) ≤ MAX_PULSE_LENGTH * PULSE_DIV)) ∧
    ((validate PULSE_DIV st).1 = -1 ↔
      ¬ (st.mebus_06181.rawlen = 74 ∧
        MIN_PULSE_LENGTH * PULSE_DIV ≤ st.mebus_06181.raw (st.mebus_06181.rawlen - 1) ∧
        st.mebus_06181.raw (st.mebus_06181.rawlen - 1) ≤ MAX_PULSE_LENGTH * PULSE_DIV)) ∧
    MIN_PULSE_LENGTH * PULSE_DIV = 205 * PULSE_DIV ∧
    MAX_PULSE_LENGTH * PULSE_DIV = 295 * PULSE_DIV ∧
    MIN_PULSE_LENGTH * 34 = 6970 ∧ MAX_PULSE_LENGTH * 34 = 10030 := by
  refine ⟨?_, ?_, rfl, rfl, by decide, by decide⟩
  · unfold validate
    simp only [RAW_LENGTH, ge_iff_le]
    split_ifs with h1 h2
    · exact ⟨fun _ => ⟨h1, h2⟩, fun _ => rfl⟩
    · exact ⟨fun h0 => absurd (show (-1 : Int) = 0 from h0) (by decide), fun hc => absurd hc.2 h2⟩
    · exact ⟨fun h0 => absurd (show (-1 : Int) = 0 from h0) (by decide), fun hc => absurd hc.1 h1⟩
  · unfold validate
    simp only [RAW_LENGTH, ge_iff_le]
    split_ifs with h1 h2
    · exact ⟨fun h0 => h0.elim, fun hc => absurd ⟨h1, h2⟩ hc⟩
    · exact ⟨fun _ hc => h2 hc.2, fun _ => rfl⟩
    · exact ⟨fun _ hc => h1 hc.1, fun _ => rfl⟩

/-! ## Bit extraction -/

/-- Claim C3. On a train of 74 pulses `fillBinary` produces exactly 37 bits: it assigns
the indices 0..36 once each, in order, and no other index; bit `i` is 1 when
`raw[2*i+1]` exceeds `AVG_PULSE_LENGTH*PULSE_MULTIPLIER = 3000` and 0 otherwise (so a
pulse of exactly 3000 gives 0); every other entry of the array keeps its content; and
the result is the same for any other train of 74 pulses with the same pulses at the odd
indices, so the pulses at even indices are not sampled. -/
theorem fillBinary_spec (p : protocol_t) (binary : Nat → Int) (h : p.rawlen = 74) :
    (fillBinary p binary).i = 37 ∧
    (fillBinary p binary).written = List.range 37 ∧
    (∀ j, (fillBinary p binary).written.count j = if j < 37 then 1 else 0) ∧
    (∀ i, i < 37 → (fillBinary p binary).binary i =
      if p.raw (2 * i + 1) > AVG_PULSE_LENGTH * PULSE_MULTIPLIER then 1 else 0) ∧
    (∀ j, 37 ≤ j → (fillBinary p binary).binary j = binary j) ∧
    AVG_PULSE_LENGTH * PULSE_MULTIPLIER = 3000 ∧
    (∀ i, i < 37 → p.raw (2 * i + 1) = 3000 → (fillBinary p binary).binary i = 0) ∧
    (∀ q : protocol_t, q.rawlen = 74 → (∀ i, i < 37 → q.raw (2 * i + 1) = p.raw (2 * i + 1)) →
      (fillBinary q binary).binary = (fillBinary p binary).binary ∧
      (fillBinary q binary).i = (fillBinary p binary).i ∧
      (fillBinary q binary).written = (fillBinary p binary).written) := by
  obtain ⟨h1, h2, h3⟩ := fillBinary_74 p binary h
  have hthr : AVG_PULSE_LENGTH * PULSE_MULTIPLIER = 3000 := by decide
  refine ⟨h1, h2, ?_, ?_, ?_, hthr, ?_, ?_⟩
  · intro j
    rw [h2]
    by_cases hj : j < 37
    · rw [if_pos hj]
      exact List.count_eq_one_of_mem (List.nodup_range 37) (List.mem_range.mpr hj)
    · rw [if_neg hj]
      exact List.count_eq_zero_of_not_mem (fun hm => hj (List.mem_range.mp hm))
  · intro i hi
    rw [h3 i, if_pos hi]
  · intro j hj
    rw [h3 j, if_neg (by omega)]
  · intro i hi hr
    rw [h3 i, if_pos hi, hr, hthr]
    rfl
  · intro q hq hagree
    obtain ⟨q1, q2, q3⟩ := fillBinary_74 q binary hq
    refine ⟨?_, by rw [q1, h1], by rw [q2, h2]⟩
    funext j
    rw [q3 j, h3 j]
    by_cases hj : j < 37
    · rw [if_pos hj, if_pos hj, hagree j hj]
    · rw [if_neg hj, if_neg hj]

/-- The hypothesis of `fillBinary_spec` holds for the train of `frameReading`, whose
37 assignments are the indices 0..36. -/
theorem fillBinary_spec_witness :
    (trainOf frameReading 8000).rawlen = 74 ∧
    (fillBinary (trainOf frameReading 8000) (fun _ => 0)).written = List.range 37 :=
  ⟨rfl, (fillBinary_spec (trainOf frameReading 8000) (fun _ => 0) rfl).2.1⟩

/-! ## The decoder -/

/-- Claim C2. For the 37 bits extracted from a train of 74 pulses, `parseCode` produces a
reading exactly when the low four bits of the sum of the eight leading nibbles equal
the checksum field, bits 32-35, all read with `binToDec`: when they are equal,
`validateChecksum` returns 1 and a message is set; when they differ, `validateChecksum`
returns 0 and `parseCode` leaves the whole state, the message included, as it was. -/
theorem parseCode_reading_iff (EPSILON : ℚ) (binary : Nat → Int) (st : State)
    (h : st.mebus_06181.rawlen = 74) :
    (∀ i, i < 37 → extractedBits st binary i = 0 ∨ extractedBits st binary i = 1) ∧
    (Int.land (nibbleSum (extractedBits st binary)) 0x0F =
        binToDec (extractedBits st binary) 32 35 →
      validateChecksum (extractedBits st binary) = 1 ∧
      ∃ r, (parseCode EPSILON binary st).mebus_06181.message = some r) ∧
    (Int.land (nibbleSum (extractedBits st binary)) 0x0F ≠
        binToDec (extractedBits st binary) 32 35 →
      validateChecksum (extractedBits st binary) = 0 ∧
      parseCode EPSILON binary st = st) ∧
    (st.mebus_06181.message = none →
      ((∃ r, (parseCode EPSILON binary st).mebus_06181.message = some r) ↔
        Int.land (nibbleSum (extractedBits st binary)) 0x0F =
          binToDec (extractedBits st binary) 32 35)) := by
  have hpass : Int.land (nibbleSum (extractedBits st binary)) 0x0F =
        binToDec (extractedBits st binary) 32 35 →
      validateChecksum (extractedBits st binary) = 1 ∧
      ∃ r, (parseCode EPSILON binary st).mebus_06181.message = some r := by
    intro hc
    have h1 : validateChecksum (extractedBits st binary) = 1 := by
      rw [validateChecksum_eq, if_pos hc]
    refine ⟨h1, ?_⟩
    rw [parseCode_pass EPSILON binary st h1]
    exact ⟨_, rfl⟩
  have hfail : Int.land (nibbleSum (extractedBits st binary)) 0x0F ≠
        binToDec (extractedBits st binary) 32 35 →
      validateChecksum (extractedBits st binary) = 0 ∧
      parseCode EPSILON binary st = st := by
    intro hc
    have h0 : validateChecksum (extractedBits st binary) = 0 := by
      rw [validateChecksum_eq, if_neg hc]
    exact ⟨h0, parseCode_fail EPSILON binary st h0⟩
  refine ⟨fun i hi => fillBinary_bit_cases st.mebus_06181 binary h i hi, hpass, hfail, ?_⟩
  intro hnone
  constructor
  · rintro ⟨r, hr⟩
    by_contra hc
    rw [(hfail hc).2, hnone] at hr
    exact Option.noConfusion hr
  · intro hc
    exact (hpass hc).2

/-- The train of `frameReading` has 74 pulses and its checksum fits, so `parseCode`
sets a message for it. -/
theorem parseCode_reading_iff_witness :
    (stateReading []).mebus_06181.rawlen = 74 ∧
    ∃ r, (parseCode (1 / 100000) (fun _ => 0) (stateReading [])).mebus_06181.message =
      some r :=
  ⟨rfl, ((parseCode_reading_iff (1 / 100000) (fun _ => 0) (stateReading []) rfl).2.1
    (by decide)).2⟩

/-- Claim C4. When the checksum fits, the id in the message is bits 0-3 read with
`binToDecRev`, in which bit 0 is the highest-order bit, `8*b[0] + 4*b[1] + 2*b[2] + b[3]`,
and the channel is bits 4-5 read the same way, `2*b[4] + b[5]`. -/
theorem parseCode_id_channel (EPSILON : ℚ) (binary : Nat → Int) (st : State)
    (h : st.mebus_06181.rawlen = 74)
    (hcs : validateChecksum (extractedBits st binary) = 1) :
    (∀ i, i < 6 → extractedBits st binary i = 0 ∨ extractedBits st binary i = 1) ∧
    Option.map SensorReading.id (parseCode EPSILON binary st).mebus_06181.message =
      some (binToDecRev (extractedBits st binary) 0 3) ∧
    Option.map SensorReading.channel (parseCode EPSILON binary st).mebus_06181.message =
      some (binToDecRev (extractedBits st binary) 4 5) ∧
    Option.map SensorReading.id (parseCode EPSILON binary st).mebus_06181.message =
      some (8 * extractedBits st binary 0 + 4 * extractedBits st binary 1 +
        2 * extractedBits st binary 2 + extractedBits st binary 3) ∧
    Option.map SensorReading.channel (parseCode EPSILON binary st).mebus_06181.message =
      some (2 * extractedBits st binary 4 + extractedBits st binary 5) := by
  refine ⟨fun i hi => fillBinary_bit_cases st.mebus_06181 binary h i (by omega), ?_, ?_, ?_, ?_⟩
  · rw [parseCode_pass EPSILON binary st hcs]; rfl
  · rw [parseCode_pass EPSILON binary st hcs]; rfl
  · rw [parseCode_pass EPSILON binary st hcs, ← binToDecRev_nibble]; rfl
  · rw [parseCode_pass EPSILON binary st hcs, ← binToDecRev_pair]; rfl

/-- The frame `frameReading` (bits 0-3 are 0011, bits 4-5 are 01) decodes to id 3 and
channel 1. -/
theorem parseCode_id_channel_witness :
    (stateReading []).mebus_06181.rawlen = 74 ∧
    validateChecksum (extractedBits (stateReading []) (fun _ => 0)) = 1 ∧
    Option.map SensorReading.id
      (parseCode (1 / 100000) (fun _ => 0) (stateReading [])).mebus_06181.message =
        some (8 * 0 + 4 * 0 + 2 * 1 + 1) ∧
    Option.map SensorReading.channel
      (parseCode (1 / 100000) (fun _ => 0) (stateReading [])).mebus_06181.message =
        some (2 * 0 + 1) :=
  ⟨rfl, by decide,
    (parseCode_id_channel (1 / 100000) (fun _ => 0) (stateReading []) rfl (by decide)).2.2.2.1,
    (parseCode_id_channel (1 / 100000) (fun _ => 0) (stateReading []) rfl (by decide)).2.2.2.2⟩

/-! ## The settings scan -/

/-- The scan adds nothing when no node matches. -/
theorem applySettings_no_match (EPSILON : ℚ) (id channel : Int) (th : ℚ × ℚ) :
    ∀ settings : List settings_t,
      (∀ r ∈ settings, ¬ (|r.id - id| < EPSILON ∧ |r.channel - channel| < EPSILON)) →
      applySettings EPSILON id channel settings th = th := by
  intro settings
  induction settings with
  | nil => intro _; rfl
  | cons tmp next ih =>
    intro hno
    have h1 := hno tmp (List.mem_cons_self tmp next)
    rw [applySettings, if_neg h1]
    exact ih (fun r hr => hno r (List.mem_cons_of_mem tmp hr))

/-- The scan adds the offsets of the first matching node and of no other. -/
theorem applySettings_firstMatch (EPSILON : ℚ) (id channel : Int) (th : ℚ × ℚ) :
    ∀ settings : List settings_t,
      applySettings EPSILON id channel settings th =
        match firstMatch EPSILON id channel settings with
        | some r => (th.1 + r.temp, th.2 + r.humi)
        | none => th := by
  intro settings
  induction settings with
  | nil => rfl
  | cons tmp next ih =>
    by_cases h1 : |tmp.id - id| < EPSILON ∧ |tmp.channel - channel| < EPSILON
    · rw [applySettings, if_pos h1]
      simp [firstMatch, List.find?, h1]
    · rw [applySettings, if_neg h1, ih]
      simp only [firstMatch, List.find?, h1, decide_False]

/-- The scan stops at a matching node that no matching node precedes. -/
theorem applySettings_append_match (EPSILON : ℚ) (id channel : Int) (th : ℚ × ℚ)
    (r : settings_t) (post : List settings_t)
    (hr : |r.id - id| < EPSILON ∧ |r.channel - channel| < EPSILON) :
    ∀ pre : List settings_t,
      (∀ q ∈ pre, ¬ (|q.id - id| < EPSILON ∧ |q.channel - channel| < EPSILON)) →
      applySettings EPSILON id channel (pre ++ r :: post) th =
        (th.1 + r.temp, th.2 + r.humi) := by
  intro pre
  induction pre with
  | nil =>
    intro _
    rw [List.nil_append, applySettings, if_pos hr]
  | cons tmp next ih =>
    intro hno
    have h1 := hno tmp (List.mem_cons_self tmp next)
    rw [List.cons_append, applySettings, if_neg h1]
    exact ih (fun q hq => hno q (List.mem_cons_of_mem tmp hq))

/-- The scan adds the matched offsets. -/
theorem applySettings_matchedOffsets (EPSILON : ℚ) (id channel : Int) (th : ℚ × ℚ)
    (settings : List settings_t) :
    applySettings EPSILON id channel settings th =
      (th.1 + (matchedOffsets EPSILON id channel settings).1,
        th.2 + (matchedOffsets EPSILON id channel settings).2) := by
  rw [applySettings_firstMatch, matchedOffsets]
  cases firstMatch EPSILON id channel settings with
  | none => simp
  | some r => rfl

/-- The message when the checksum fits and no node of the settings matches. -/
theorem parseCode_no_match (EPSILON : ℚ) (binary : Nat → Int) (st : State)
    (hcs : validateChecksum (extractedBits st binary) = 1)
    (hno : ∀ r ∈ st.settings,
      ¬ (|r.id - (binToDecRev (extractedBits st binary) 0 3 : Int)| < EPSILON ∧
         |r.channel - (binToDecRev (extractedBits st binary) 4 5 : Int)| < EPSILON)) :
    (parseCode EPSILON binary st).mebus_06181.message =
      some ⟨binToDecRev (extractedBits st binary) 0 3,
        binToDecRev (extractedBits st binary) 4 5,
        rawTemperature (extractedBits st binary), rawHumidity (extractedBits st binary)⟩ := by
  rw [parseCode_pass EPSILON binary st hcs, applySettings_no_match _ _ _ _ _ hno]
  rfl

/-- With a sign bit that is 0 or 1, the branch on the sign bit subtracts 2048 times the
sign bit. -/
theorem rawTemperature_eq (b : Nat → Int) (h : b 23 = 0 ∨ b 23 = 1) :
    rawTemperature b = (((binToDec b 12 22 - 2048 * b 23 : Int) : ℚ)) / 10 := by
  unfold rawTemperature
  rcases h with h | h
  · rw [h]; norm_num
  · rw [h]; norm_num

/-- Claim C5, amended. When the checksum fits and no settings node matches, the
temperature in the message is `(V - 2048*b[23]) / 10`, exact as a rational, where `V` is
bits 12-22 read with `binToDec`, least-significant bit first: `V` is the sum over `k` in
0..10 of `b[12+k] * 2^k`, so bit 12 has weight 1 and bit 22 has weight 1024. -/
theorem parseCode_temperature (EPSILON : ℚ) (binary : Nat → Int) (st : State)
    (h : st.mebus_06181.rawlen = 74)
    (hcs : validateChecksum (extractedBits st binary) = 1)
    (hno : ∀ r ∈ st.settings,
      ¬ (|r.id - (binToDecRev (extractedBits st binary) 0 3 : Int)| < EPSILON ∧
         |r.channel - (binToDecRev (extractedBits st binary) 4 5 : Int)| < EPSILON)) :
    Option.map SensorReading.temperature (parseCode EPSILON binary st).mebus_06181.message =
      some ((((((List.range 11).map (fun k => extractedBits st binary (12 + k) * 2 ^ k)).sum
        - 2048 * extractedBits st binary 23 : Int) : ℚ)) / 10) ∧
    ((List.range 11).map (fun k => extractedBits st binary (12 + k) * 2 ^ k)).sum =
      extractedBits st binary 12 + 2 * extractedBits st binary 13 +
      4 * extractedBits st binary 14 + 8 * extractedBits st binary 15 +
      16 * extractedBits st binary 16 + 32 * extractedBits st binary 17 +
      64 * extractedBits st binary 18 + 128 * extractedBits st binary 19 +
      256 * extractedBits st binary 20 + 512 * extractedBits st binary 21 +
      1024 * extractedBits st binary 22 := by
  have hV : ((List.range 11).map (fun k => extractedBits st binary (12 + k) * 2 ^ k)).sum =
      binToDec (extractedBits st binary) 12 22 := rfl
  refine ⟨?_, ?_⟩
  · rw [parseCode_no_match EPSILON binary st hcs hno, hV]
    simp only [Option.map_some']
    rw [rawTemperature_eq _ (extractedBits_cases st binary h 23 (by omega))]
  · rw [hV, binToDec_temperature]

/-- The frame `frameReading` fulfils the hypotheses of `parseCode_temperature`; its
temperature field, read least-significant bit first, is 150, which gives 15.0. -/
theorem parseCode_temperature_witness :
    (stateReading []).mebus_06181.rawlen = 74 ∧
    validateChecksum (extractedBits (stateReading []) (fun _ => 0)) = 1 ∧
    Option.map SensorReading.temperature
      (parseCode (1 / 100000) (fun _ => 0) (stateReading [])).mebus_06181.message =
        some ((((150 - 2048 * 0 : Int) : ℚ)) / 10) :=
  ⟨rfl, by decide,
    (parseCode_temperature (1 / 100000) (fun _ => 0) (stateReading []) rfl (by decide)
      (fun _ hr => absurd hr (List.not_mem_nil _))).1⟩

/-- Claim C5 as stated fails. The frame `frameTemperature` passes the checksum and the
settings are empty; bits 12-22 are 10000000000, whose most-significant-first value is
1024, so the claim gives a temperature of 102.4, and `parseCode` emits 0.1. -/
theorem parseCode_temperature_msb_counterexample :
    stateTemperature.mebus_06181.rawlen = 74 ∧
    validateChecksum (extractedBits stateTemperature (fun _ => 0)) = 1 ∧
    stateTemperature.settings = [] ∧
    ((List.range 11).map
      (fun k => extractedBits stateTemperature (fun _ => 0) (12 + k) * 2 ^ (10 - k))).sum = 1024 ∧
    extractedBits stateTemperature (fun _ => 0) 23 = 0 ∧
    Option.map SensorReading.temperature
      (parseCode (1 / 100000) (fun _ => 0) stateTemperature).mebus_06181.message =
        some (1 / 10) ∧
    Option.map SensorReading.temperature
      (parseCode (1 / 100000) (fun _ => 0) stateTemperature).mebus_06181.message ≠
        some (((((List.range 11).map
          (fun k => extractedBits stateTemperature (fun _ => 0) (12 + k) * 2 ^ (10 - k))).sum
          - 2048 * extractedBits stateTemperature (fun _ => 0) 23 : Int) : ℚ) / 10) := by
  have hcs : validateChecksum (extractedBits stateTemperature (fun _ => 0)) = 1 := by decide
  have hmsb : ((List.range 11).map
      (fun k => extractedBits stateTemperature (fun _ => 0) (12 + k) * 2 ^ (10 - k))).sum =
        1024 := by decide
  have hsign : extractedBits stateTemperature (fun _ => 0) 23 = 0 := by decide
  have hv : binToDec (extractedBits stateTemperature (fun _ => 0)) 12 22 = 1 := by decide
  have hmsg : Option.map SensorReading.temperature
      (parseCode (1 / 100000) (fun _ => 0) stateTemperature).mebus_06181.message =
        some (1 / 10) := by
    rw [parseCode_no_match (1 / 100000) (fun _ => 0) stateTemperature hcs
      (fun _ hr => absurd hr (List.not_mem_nil _))]
    simp only [Option.map_some']
    rw [rawTemperature_eq _ (Or.inl hsign), hv, hsign]
    norm_num
  refine ⟨rfl, hcs, rfl, hmsb, hsign, hmsg, ?_⟩
  rw [hmsg, hmsb, hsign]
  norm_num

/-- Claim C6. When the checksum fits and no settings node matches, the humidity in the
message is ten times the high nibble (bits 28-31) plus the low nibble (bits 24-27), both
read with `binToDec`. End to end: a train of 74 pulses whose bits pass the checksum and
give id 3, channel 1, temperature field 150 with sign bit 0, humidity high nibble 2 and
low nibble 5, decoded with a settings list in which no node matches (3, 1), yields
exactly the reading with id 3, channel 1, temperature 15.0 and humidity 25.0. -/
theorem parseCode_end_to_end (EPSILON : ℚ) (binary : Nat → Int) (st : State)
    (h : st.mebus_06181.rawlen = 74)
    (hcs : validateChecksum (extractedBits st binary) = 1) :
    ((∀ r ∈ st.settings,
        ¬ (|r.id - (binToDecRev (extractedBits st binary) 0 3 : Int)| < EPSILON ∧
           |r.channel - (binToDecRev (extractedBits st binary) 4 5 : Int)| < EPSILON)) →
      Option.map SensorReading.humidity (parseCode EPSILON binary st).mebus_06181.message =
        some (10 * ((binToDec (extractedBits st binary) 28 31 : Int) : ℚ) +
          ((binToDec (extractedBits st binary) 24 27 : Int) : ℚ))) ∧
    (binToDecRev (extractedBits st binary) 0 3 = 3 →
      binToDecRev (extractedBits st binary) 4 5 = 1 →
      binToDec (extractedBits st binary) 12 22 = 150 →
      extractedBits st binary 23 = 0 →
      binToDec (extractedBits st binary) 28 31 = 2 →
      binToDec (extractedBits st binary) 24 27 = 5 →
      (∀ r ∈ st.settings, ¬ (|r.id - 3| < EPSILON ∧ |r.channel - 1| < EPSILON)) →
      (parseCode EPSILON binary st).mebus_06181.message = some ⟨3, 1, 15, 25⟩) := by
  have _ := h
  constructor
  · intro hno
    rw [parseCode_no_match EPSILON binary st hcs hno]
    rfl
  · intro hid hch ht hs hhi hlo hno
    have hno2 : ∀ r ∈ st.settings,
        ¬ (|r.id - (binToDecRev (extractedBits st binary) 0 3 : Int)| < EPSILON ∧
           |r.channel - (binToDecRev (extractedBits st binary) 4 5 : Int)| < EPSILON) := by
      intro r hr
      rw [hid, hch]
      simpa using hno r hr
    rw [parseCode_no_match EPSILON binary st hcs hno2, hid, hch,
      rawTemperature_eq _ (Or.inl hs), ht, hs, rawHumidity, hhi, hlo]
    norm_num

/-- The frame `frameReading`, decoded with a settings list whose only node is for
(3, 2), fulfils the hypotheses of `parseCode_end_to_end` and yields the reading with id 3,
channel 1, temperature 15.0 and humidity 25.0. -/
theorem parseCode_end_to_end_witness :
    (stateReading [⟨3, 2, 1, 1⟩]).mebus_06181.rawlen = 74 ∧
    validateChecksum (extractedBits (stateReading [⟨3, 2, 1, 1⟩]) (fun _ => 0)) = 1 ∧
    (parseCode (1 / 100000) (fun _ => 0) (stateReading [⟨3, 2, 1, 1⟩])).mebus_06181.message =
      some ⟨3, 1, 15, 25⟩ :=
  ⟨rfl, by decide,
    (parseCode_end_to_end (1 / 100000) (fun _ => 0) (stateReading [⟨3, 2, 1, 1⟩]) rfl
      (by decide)).2 (by decide) (by decide) (by decide) (by decide) (by decide) (by decide)
      (by
        intro r hr
        rw [show r = ⟨3, 2, 1, 1⟩ from List.mem_singleton.mp hr]
        norm_num)⟩

/-- Claim C7. When the checksum fits, the message carries `T0 + t` and `H0 + h`, where
`T0` and `H0` are the temperature and humidity decoded with an empty settings list and
`(t, h)` are the offsets of the first node in scan order whose id and channel are both
within `EPSILON` of the decoded id and channel, or (0, 0) when no node matches; a matching
node that no matching node precedes is the only one whose offsets are added, whatever
follows it. For the frame with id 3, channel 1, temperature field 150, humidity nibbles 2
and 5 and a settings list whose first match for (3, 1) is the node (3, 1, -1.0, 2.0), the
message has temperature 14.0 and humidity 27.0. -/
theorem parseCode_offsets (EPSILON : ℚ) (binary : Nat → Int) (st : State)
    (h : st.mebus_06181.rawlen = 74)
    (hcs : validateChecksum (extractedBits st binary) = 1) :
    (parseCode EPSILON binary ⟨[], st.mebus_06181⟩).mebus_06181.message =
      some ⟨binToDecRev (extractedBits st binary) 0 3, binToDecRev (extractedBits st binary) 4 5,
        rawTemperature (extractedBits st binary), rawHumidity (extractedBits st binary)⟩ ∧
    (parseCode EPSILON binary st).mebus_06181.message =
      some ⟨binToDecRev (extractedBits st binary) 0 3, binToDecRev (extractedBits st binary) 4 5,
        rawTemperature (extractedBits st binary) +
          (matchedOffsets EPSILON (binToDecRev (extractedBits st binary) 0 3)
            (binToDecRev (extractedBits st binary) 4 5) st.settings).1,
        rawHumidity (extractedBits st binary) +
          (matchedOffsets EPSILON (binToDecRev (extractedBits st binary) 0 3)
            (binToDecRev (extractedBits st binary) 4 5) st.settings).2⟩ ∧
    (∀ (pre post : List settings_t) (r : settings_t),
      st.settings = pre ++ r :: post →
      (∀ q ∈ pre,
        ¬ (|q.id - (binToDecRev (extractedBits st binary) 0 3 : Int)| < EPSILON ∧
           |q.channel - (binToDecRev (extractedBits st binary) 4 5 : Int)| < EPSILON)) →
      (|r.id - (binToDecRev (extractedBits st binary) 0 3 : Int)| < EPSILON ∧
         |r.channel - (binToDecRev (extractedBits st binary) 4 5 : Int)| < EPSILON) →
      (parseCode EPSILON binary st).mebus_06181.message =
        some ⟨binToDecRev (extractedBits st binary) 0 3,
          binToDecRev (extractedBits st binary) 4 5,
          rawTemperature (extractedBits st binary) + r.temp,
          rawHumidity (extractedBits st binary) + r.humi⟩) ∧
    (0 < EPSILON →
      binToDecRev (extractedBits st binary) 0 3 = 3 →
      binToDecRev (extractedBits st binary) 4 5 = 1 →
      binToDec (extractedBits st binary) 12 22 = 150 →
      extractedBits st binary 23 = 0 →
      binToDec (extractedBits st binary) 28 31 = 2 →
      binToDec (extractedBits st binary) 24 27 = 5 →
      ∀ pre post : List settings_t, st.settings = pre ++ ⟨3, 1, -1, 2⟩ :: post →
      (∀ q ∈ pre, ¬ (|q.id - 3| < EPSILON ∧ |q.channel - 1| < EPSILON)) →
      (parseCode EPSILON binary st).mebus_06181.message = some ⟨3, 1, 14, 27⟩) := by
  have _ := h
  have hcs0 : validateChecksum (extractedBits ⟨[], st.mebus_06181⟩ binary) = 1 := hcs
  have hgen : ∀ (pre post : List settings_t) (r : settings_t),
      st.settings = pre ++ r :: post →
      (∀ q ∈ pre,
        ¬ (|q.id - (binToDecRev (extractedBits st binary) 0 3 : Int)| < EPSILON ∧
           |q.channel - (binToDecRev (extractedBits st binary) 4 5 : Int)| < EPSILON)) →
      (|r.id - (binToDecRev (extractedBits st binary) 0 3 : Int)| < EPSILON ∧
         |r.channel - (binToDecRev (extractedBits st binary) 4 5 : Int)| < EPSILON) →
      (parseCode EPSILON binary st).mebus_06181.message =
        some ⟨binToDecRev (extractedBits st binary) 0 3,
          binToDecRev (extractedBits st binary) 4 5,
          rawTemperature (extractedBits st binary) + r.temp,
          rawHumidity (extractedBits st binary) + r.humi⟩ := by
    intro pre post r hsplit hpre hr
    rw [parseCode_pass EPSILON binary st hcs, hsplit,
      applySettings_append_match EPSILON _ _ _ r post hr pre hpre]
    rfl
  refine ⟨?_, ?_, hgen, ?_⟩
  · exact parseCode_no_match EPSILON binary ⟨[], st.mebus_06181⟩ hcs0
      (fun _ hr => absurd hr (List.not_mem_nil _))
  · rw [parseCode_pass EPSILON binary st hcs, applySettings_matchedOffsets]
    rfl
  · intro hpos hid hch ht hs hhi hlo pre post hsplit hpre
    rw [hgen pre post ⟨3, 1, -1, 2⟩ hsplit
      (by
        intro q hq
        rw [hid, hch]
        simpa using hpre q hq)
      (by
        rw [hid, hch]
        simpa using hpos),
      hid, hch, rawTemperature_eq _ (Or.inl hs), ht, hs, rawHumidity, hhi, hlo]
    norm_num

/-- The frame `frameReading`, decoded with the settings list (3, 1, -1.0, 2.0),
(3, 1, 10.0, 10.0), fulfils the hypotheses of `parseCode_offsets` and yields temperature
14.0 and humidity 27.0: only the offsets of the first node are added. -/
theorem parseCode_offsets_witness :
    (stateReading [⟨3, 1, -1, 2⟩, ⟨3, 1, 10, 10⟩]).mebus_06181.rawlen = 74 ∧
    validateChecksum
      (extractedBits (stateReading [⟨3, 1, -1, 2⟩, ⟨3, 1, 10, 10⟩]) (fun _ => 0)) = 1 ∧
    (parseCode (1 / 100000) (fun _ => 0)
      (stateReading [⟨3, 1, -1, 2⟩, ⟨3, 1, 10, 10⟩])).mebus_06181.message =
        some ⟨3, 1, 14, 27⟩ :=
  ⟨rfl, by decide,
    (parseCode_offsets (1 / 100000) (fun _ => 0)
      (stateReading [⟨3, 1, -1, 2⟩, ⟨3, 1, 10, 10⟩]) rfl (by decide)).2.2.2
      (by norm_num) (by decide) (by decide) (by decide) (by decide) (by decide) (by decide)
      [] [⟨3, 1, 10, 10⟩] rfl (fun _ hq => absurd hq (List.not_mem_nil _))⟩

/-- Claim C8. For the 37 bits `b` of a train that passes the checksum and a position `p`
in 32..35, the sequence that differs from `b` in bit `p` only fails the checksum, and
`parseCode` on any train of 74 pulses that carries it leaves the state as it was, so no
reading is produced. Decoding is deterministic: two calls on the same 37 bits, the same
settings and the same message before the call end with the same message. -/
theorem checksum_field_flip (EPSILON : ℚ) (binary : Nat → Int) (st : State)
    (h : st.mebus_06181.rawlen = 74)
    (hcs : validateChecksum (extractedBits st binary) = 1)
    (p : Nat) (hp1 : 32 ≤ p) (hp2 : p ≤ 35) :
    validateChecksum
      (setBinary (extractedBits st binary) p (1 - extractedBits st binary p)) = 0 ∧
    (∀ (binary2 : Nat → Int) (st2 : State), st2.mebus_06181.rawlen = 74 →
      (∀ i, i < 37 → extractedBits st2 binary2 i =
        setBinary (extractedBits st binary) p (1 - extractedBits st binary p) i) →
      validateChecksum (extractedBits st2 binary2) = 0 ∧
      parseCode EPSILON binary2 st2 = st2) ∧
    (∀ (binary1 binary2 : Nat → Int) (st1 st2 : State),
      st1.mebus_06181.rawlen = 74 → st2.mebus_06181.rawlen = 74 →
      st1.settings = st2.settings →
      st1.mebus_06181.message = st2.mebus_06181.message →
      (∀ i, i < 37 → extractedBits st1 binary1 i = extractedBits st2 binary2 i) →
      (parseCode EPSILON binary1 st1).mebus_06181.message =
        (parseCode EPSILON binary2 st2).mebus_06181.message) := by
  have hflip : validateChecksum
      (setBinary (extractedBits st binary) p (1 - extractedBits st binary p)) = 0 := by
    have hsum := validateChecksum_one _ hcs
    have hn : nibbleSum (setBinary (extractedBits st binary) p (1 - extractedBits st binary p)) =
        nibbleSum (extractedBits st binary) := by
      apply nibbleSum_congr
      intro i hi
      simp only [setBinary]
      rw [if_neg (by omega)]
    have hbit := extractedBits_cases st binary h p (by omega)
    rw [validateChecksum_eq, hn, hsum, if_neg]
    rw [binToDec_nibble, binToDec_nibble]
    simp only [setBinary]
    have hp : p = 32 ∨ p = 33 ∨ p = 34 ∨ p = 35 := by omega
    rcases hp with hp | hp | hp | hp <;> subst hp <;> norm_num <;> omega
  refine ⟨hflip, ?_, ?_⟩
  · intro binary2 st2 _ hbits
    have h0 : validateChecksum (extractedBits st2 binary2) = 0 := by
      rw [validateChecksum_congr _ _ hbits]
      exact hflip
    exact ⟨h0, parseCode_fail EPSILON binary2 st2 h0⟩
  · intro binary1 binary2 st1 st2 _ _ hset hmsg hbits
    exact parseCode_message_congr EPSILON binary1 binary2 st1 st2 hset hmsg hbits

/-- The frame `frameReading` passes the checksum; `frameFlipped` is that frame with bit 32
flipped, and `parseCode` leaves the state of its train as it was. -/
theorem checksum_field_flip_witness :
    (stateReading []).mebus_06181.rawlen = 74 ∧
    validateChecksum (extractedBits (stateReading []) (fun _ => 0)) = 1 ∧
    (32 ≤ 32 ∧ 32 ≤ 35) ∧
    validateChecksum (extractedBits stateFlipped (fun _ => 0)) = 0 ∧
    parseCode (1 / 100000) (fun _ => 0) stateFlipped = stateFlipped :=
  ⟨rfl, by decide, by decide,
    (checksum_field_flip (1 / 100000) (fun _ => 0) (stateReading []) rfl (by decide) 32
      (by decide) (by decide)).2.1 (fun _ => 0) stateFlipped rfl (by decide)⟩

/-- Claim C9, amended. When the checksum fits and bits 0-3 are 1000 (bit 0 is 1, bits 1-3
are 0), the id in the message is 8, not 1: `binToDecRev` takes bit 0 as the highest-order
bit. -/
theorem parseCode_id_nibble_1000 (EPSILON : ℚ) (binary : Nat → Int) (st : State)
    (h : st.mebus_06181.rawlen = 74)
    (hcs : validateChecksum (extractedBits st binary) = 1)
    (h0 : extractedBits st binary 0 = 1) (h1 : extractedBits st binary 1 = 0)
    (h2 : extractedBits st binary 2 = 0) (h3 : extractedBits st binary 3 = 0) :
    Option.map SensorReading.id (parseCode EPSILON binary st).mebus_06181.message = some 8 ∧
    Option.map SensorReading.id (parseCode EPSILON binary st).mebus_06181.message ≠ some 1 := by
  have _ := h
  have hid : Option.map SensorReading.id (parseCode EPSILON binary st).mebus_06181.message =
      some 8 := by
    rw [parseCode_pass EPSILON binary st hcs]
    simp only [withMessage, Option.map_some']
    rw [binToDecRev_nibble, h0, h1, h2, h3]
    rfl
  refine ⟨hid, ?_⟩
  rw [hid]
  decide

/-- The frame `frameId` fulfils the hypotheses of `parseCode_id_nibble_1000`. -/
theorem parseCode_id_nibble_1000_witness :
    stateId.mebus_06181.rawlen = 74 ∧
    validateChecksum (extractedBits stateId (fun _ => 7)) = 1 ∧
    extractedBits stateId (fun _ => 7) 0 = 1 ∧ extractedBits stateId (fun _ => 7) 1 = 0 ∧
    extractedBits stateId (fun _ => 7) 2 = 0 ∧ extractedBits stateId (fun _ => 7) 3 = 0 ∧
    Option.map SensorReading.id
      (parseCode (1 / 100000) (fun _ => 7) stateId).mebus_06181.message = some 8 :=
  ⟨rfl, by decide, by decide, by decide, by decide, by decide,
    (parseCode_id_nibble_1000 (1 / 100000) (fun _ => 7) stateId rfl (by decide) (by decide)
      (by decide) (by decide) (by decide)).1⟩

/-- Claim C9 as stated fails. The frame `frameId` passes the checksum and its bits 0-3
are 1000; `parseCode` emits the id 8 for it, not 1. -/
theorem parseCode_id_reversed_counterexample :
    stateId.mebus_06181.rawlen = 74 ∧
    validateChecksum (extractedBits stateId (fun _ => 0)) = 1 ∧
    extractedBits stateId (fun _ => 0) 0 = 1 ∧ extractedBits stateId (fun _ => 0) 1 = 0 ∧
    extractedBits stateId (fun _ => 0) 2 = 0 ∧ extractedBits stateId (fun _ => 0) 3 = 0 ∧
    Option.map SensorReading.id
      (parseCode (1 / 100000) (fun _ => 0) stateId).mebus_06181.message = some 8 ∧
    Option.map SensorReading.id
      (parseCode (1 / 100000) (fun _ => 0) stateId).mebus_06181.message ≠ some 1 := by
  have hcs : validateChecksum (extractedBits stateId (fun _ => 0)) = 1 := by decide
  have hid : Option.map SensorReading.id
      (parseCode (1 / 100000) (fun _ => 0) stateId).mebus_06181.message = some 8 := by
    rw [parseCode_pass (1 / 100000) (fun _ => 0) stateId hcs]
    decide
  refine ⟨rfl, hcs, by decide, by decide, by decide, by decide, hid, ?_⟩
  rw [hid]
  decide

/-- Claim C10. When the checksum fits and no settings node matches, with `v` the value
`binToDec` reads from bits 12-22: (i) if bits 12-22 are all 0 and the sign bit 23 is 0,
the temperature in the message is 0.0; (ii) if the sign bit is 1, the temperature is
`(v - 2048) / 10`, which is negative and lies between -204.8 and -0.1; (iii) if the sign
bit is 0, the temperature is `v / 10` and lies between 0.0 and 204.7. -/
theorem parseCode_temperature_sign (EPSILON : ℚ) (binary : Nat → Int) (st : State)
    (h : st.mebus_06181.rawlen = 74)
    (hcs : validateChecksum (extractedBits st binary) = 1)
    (hno : ∀ r ∈ st.settings,
      ¬ (|r.id - (binToDecRev (extractedBits st binary) 0 3 : Int)| < EPSILON ∧
         |r.channel - (binToDecRev (extractedBits st binary) 4 5 : Int)| < EPSILON)) :
    ((∀ k, 12 ≤ k → k ≤ 22 → extractedBits st binary k = 0) →
      extractedBits st binary 23 = 0 →
      Option.map SensorReading.temperature (parseCode EPSILON binary st).mebus_06181.message =
        some 0) ∧
    (extractedBits st binary 23 = 1 →
      Option.map SensorReading.temperature (parseCode EPSILON binary st).mebus_06181.message =
        some ((((binToDec (extractedBits st binary) 12 22 : Int) : ℚ) - 2048) / 10) ∧
      (((binToDec (extractedBits st binary) 12 22 : Int) : ℚ) - 2048) / 10 < 0 ∧
      -(2048 / 10) ≤ (((binToDec (extractedBits st binary) 12 22 : Int) : ℚ) - 2048) / 10 ∧
      (((binToDec (extractedBits st binary) 12 22 : Int) : ℚ) - 2048) / 10 ≤ -(1 / 10)) ∧
    (extractedBits st binary 23 = 0 →
      Option.map SensorReading.temperature (parseCode EPSILON binary st).mebus_06181.message =
        some (((binToDec (extractedBits st binary) 12 22 : Int) : ℚ) / 10) ∧
      0 ≤ ((binToDec (extractedBits st binary) 12 22 : Int) : ℚ) / 10 ∧
      ((binToDec (extractedBits st binary) 12 22 : Int) : ℚ) / 10 ≤ 2047 / 10) := by
  have hmsg := parseCode_no_match EPSILON binary st hcs hno
  obtain ⟨hlo, hhi⟩ := binToDec_temperature_bounds (extractedBits st binary)
    (extractedBits_cases st binary h)
  have hlo' : (0 : ℚ) ≤ ((binToDec (extractedBits st binary) 12 22 : Int) : ℚ) := by
    exact_mod_cast hlo
  have hhi' : ((binToDec (extractedBits st binary) 12 22 : Int) : ℚ) ≤ 2047 := by
    exact_mod_cast hhi
  refine ⟨?_, ?_, ?_⟩
  · intro hzero hs
    have hv : binToDec (extractedBits st binary) 12 22 = 0 := by
      rw [binToDec_temperature, hzero 12 (by omega) (by omega), hzero 13 (by omega) (by omega),
        hzero 14 (by omega) (by omega), hzero 15 (by omega) (by omega),
        hzero 16 (by omega) (by omega), hzero 17 (by omega) (by omega),
        hzero 18 (by omega) (by omega), hzero 19 (by omega) (by omega),
        hzero 20 (by omega) (by omega), hzero 21 (by omega) (by omega),
        hzero 22 (by omega) (by omega)]
      rfl
    rw [hmsg]
    simp only [Option.map_some']
    rw [rawTemperature_eq _ (Or.inl hs), hv, hs]
    norm_num
  · intro hs
    refine ⟨?_, by linarith, by linarith, by linarith⟩
    rw [hmsg]
    simp only [Option.map_some']
    rw [rawTemperature_eq _ (Or.inr hs), hs]
    norm_num
  · intro hs
    refine ⟨?_, by linarith, by linarith⟩
    rw [hmsg]
    simp only [Option.map_some']
    rw [rawTemperature_eq _ (Or.inl hs), hs]
    norm_num

/-- The frame `frameReading` fulfils the hypotheses of `parseCode_temperature_sign`: its
sign bit is 0 and its temperature field reads 150, so the temperature is 150/10. -/
theorem parseCode_temperature_sign_witness :
    (stateReading []).mebus_06181.rawlen = 74 ∧
    validateChecksum (extractedBits (stateReading []) (fun _ => 0)) = 1 ∧
    (stateReading []).settings = [] ∧
    Option.map SensorReading.temperature
      (parseCode (1 / 100000) (fun _ => 0) (stateReading [])).mebus_06181.message =
        some (((150 : Int) : ℚ) / 10) :=
  ⟨rfl, by decide, rfl,
    ((parseCode_temperature_sign (1 / 100000) (fun _ => 0) (stateReading []) rfl (by decide)
      (fun _ hr => absurd hr (List.not_mem_nil _))).2.2 (by decide)).1⟩

/-! ## The data bits -/

/-- The checksum test reads the positions 0-35 only. -/
theorem validateChecksum_congr_data (b c : Nat → Int) (h : ∀ i, i < 36 → b i = c i) :
    validateChecksum b = validateChecksum c := by
  rw [validateChecksum_eq, validateChecksum_eq,
    nibbleSum_congr b c (fun i hi => h i (by omega)),
    binToDec_congr b c 32 35 (fun i _ _ => h i (by omega))]

/-- The outcome of `parseCode` is determined by the bits 0-35, the settings and the
message before the call. -/
theorem parseCode_message_congr_data (EPSILON : ℚ) (binary1 binary2 : Nat → Int)
    (st1 st2 : State) (hset : st1.settings = st2.settings)
    (hmsg : st1.mebus_06181.message = st2.mebus_06181.message)
    (hbits : ∀ i, i < 36 → extractedBits st1 binary1 i = extractedBits st2 binary2 i) :
    (parseCode EPSILON binary1 st1).mebus_06181.message =
      (parseCode EPSILON binary2 st2).mebus_06181.message := by
  have hv := validateChecksum_congr_data _ _ hbits
  rcases validateChecksum_cases (extractedBits st1 binary1) with h0 | h1
  · rw [parseCode_fail EPSILON binary1 st1 h0, parseCode_fail EPSILON binary2 st2 (hv ▸ h0)]
    exact hmsg
  · rw [parseCode_pass EPSILON binary1 st1 h1, parseCode_pass EPSILON binary2 st2 (hv ▸ h1)]
    simp only [withMessage, rawTemperature, rawHumidity]
    rw [hset, hbits 23 (by omega),
      binToDecRev_congr _ _ 0 3 (fun i _ _ => hbits i (by omega)),
      binToDecRev_congr _ _ 4 5 (fun i _ _ => hbits i (by omega)),
      binToDec_congr _ _ 12 22 (fun i _ _ => hbits i (by omega)),
      binToDec_congr _ _ 28 31 (fun i _ _ => hbits i (by omega)),
      binToDec_congr _ _ 24 27 (fun i _ _ => hbits i (by omega))]

/-- The nibble sum as a weighted sum of the bits 0-31. -/
theorem nibbleSum_eq (b : Nat → Int) :
    nibbleSum b =
      (b 0 + 2 * b 1 + 4 * b 2 + 8 * b 3) + (b 4 + 2 * b 5 + 4 * b 6 + 8 * b 7) +
      (b 8 + 2 * b 9 + 4 * b 10 + 8 * b 11) + (b 12 + 2 * b 13 + 4 * b 14 + 8 * b 15) +
      (b 16 + 2 * b 17 + 4 * b 18 + 8 * b 19) + (b 20 + 2 * b 21 + 4 * b 22 + 8 * b 23) +
      (b 24 + 2 * b 25 + 4 * b 26 + 8 * b 27) + (b 28 + 2 * b 29 + 4 * b 30 + 8 * b 31) := by
  unfold nibbleSum
  rw [binToDec_nibble b 0, binToDec_nibble b 4, binToDec_nibble b 8, binToDec_nibble b 12,
    binToDec_nibble b 16, binToDec_nibble b 20, binToDec_nibble b 24, binToDec_nibble b 28]

/-- On a value that is not negative, `& 0x0F` is the remainder modulo 16. -/
theorem land_15 (x : Int) (hx : 0 ≤ x) : Int.land x 0x0F = x % 16 := by
  obtain ⟨n, rfl⟩ := Int.eq_ofNat_of_zero_le hx
  show ((n &&& 15 : Nat) : Int) = (n : Int) % 16
  rw [show (15 : Nat) = 2 ^ 4 - 1 from rfl, Nat.and_pow_two_sub_one_eq_mod]
  norm_num

/-- Claim C11. The frame documented in the protocol file, bits `1110 01 10110 1
11110100000 0 0001 1010 0110` in positions 0..35, is a valid frame for the decoder,
whatever bit 36 is: the sum of its eight leading nibbles as `binToDec` reads them is 54,
whose low four bits are 6, the value `binToDec` reads from its last nibble 0110; so
`validateChecksum` returns 1 and `parseCode` sets a message for it, with id 14 and
channel 1. -/
theorem documented_frame_valid (EPSILON : ℚ) (binary : Nat → Int) (st : State)
    (h : st.mebus_06181.rawlen = 74)
    (hbits : ∀ i, i < 36 → extractedBits st binary i = frameDocumented.getD i 0) :
    nibbleSum (extractedBits st binary) = 54 ∧
    Int.land (nibbleSum (extractedBits st binary)) 0x0F = 6 ∧
    binToDec (extractedBits st binary) 32 35 = 6 ∧
    validateChecksum (extractedBits st binary) = 1 ∧
    ∃ r, (parseCode EPSILON binary st).mebus_06181.message = some r ∧
      r.id = 14 ∧ r.channel = 1 := by
  have _ := h
  have hn : nibbleSum (extractedBits st binary) = 54 := by
    rw [nibbleSum_congr _ (fun i => frameDocumented.getD i 0) (fun i hi => hbits i (by omega))]
    decide
  have hc : binToDec (extractedBits st binary) 32 35 = 6 := by
    rw [binToDec_congr _ (fun i => frameDocumented.getD i 0) 32 35
      (fun i _ _ => hbits i (by omega))]
    decide
  have hv : validateChecksum (extractedBits st binary) = 1 := by
    rw [validateChecksum_congr_data _ (fun i => frameDocumented.getD i 0) hbits]
    decide
  refine ⟨hn, by rw [hn]; decide, hc, hv, ?_⟩
  rw [parseCode_pass EPSILON binary st hv]
  refine ⟨_, rfl, ?_, ?_⟩
  · show binToDecRev (extractedBits st binary) 0 3 = 14
    rw [binToDecRev_congr _ (fun i => frameDocumented.getD i 0) 0 3
      (fun i _ _ => hbits i (by omega))]
    decide
  · show binToDecRev (extractedBits st binary) 4 5 = 1
    rw [binToDecRev_congr _ (fun i => frameDocumented.getD i 0) 4 5
      (fun i _ _ => hbits i (by omega))]
    decide

/-- The train of the documented frame fulfils the hypotheses of
`documented_frame_valid` with a last pulse of 2000, which gives bit 36 = 0, and with a
last pulse of 8000, which gives bit 36 = 1; the checksum fits in both. -/
theorem documented_frame_valid_witness :
    (stateDocumented 2000).mebus_06181.rawlen = 74 ∧
    extractedBits (stateDocumented 2000) (fun _ => 0) 36 = 0 ∧
    extractedBits (stateDocumented 8000) (fun _ => 0) 36 = 1 ∧
    validateChecksum (extractedBits (stateDocumented 2000) (fun _ => 0)) = 1 ∧
    validateChecksum (extractedBits (stateDocumented 8000) (fun _ => 0)) = 1 :=
  ⟨rfl, by decide, by decide,
    (documented_frame_valid (1 / 100000) (fun _ => 0) (stateDocumented 2000) rfl
      (by decide)).2.2.2.1,
    (documented_frame_valid (1 / 100000) (fun _ => 0) (stateDocumented 8000) rfl
      (by decide)).2.2.2.1⟩

/-! ## The settings list: teardown -/

/-- The loop of `gc` ends with an empty list. -/
theorem gcLoop_nil (settings : List settings_t) : gcLoop settings = [] := by
  induction settings with
  | nil => rfl
  | cons _ next ih => rw [gcLoop, ih]

/-- No node of an empty settings list matches. -/
theorem scanMatch_nil (EPSILON id channel : ℚ) : scanMatch EPSILON id channel [] = none := rfl

/-- Claim C16. The function `gc` leaves the settings list empty and the protocol object
as it was; on an empty list it changes nothing; calling it twice gives the state that
calling it once gives; and after it a lookup of any key finds no node, so that every
decode adds no offsets: the message is the one decoded with no settings. -/
theorem gc_clear (st : State) :
    (gc st).settings = [] ∧
    (gc st).mebus_06181 = st.mebus_06181 ∧
    gc ⟨[], st.mebus_06181⟩ = ⟨[], st.mebus_06181⟩ ∧
    gc (gc st) = gc st ∧
    (∀ EPSILON id channel : ℚ, lookup EPSILON id channel (gc st).settings = none) ∧
    (∀ (EPSILON : ℚ) (id channel : Int), firstMatch EPSILON id channel (gc st).settings = none) ∧
    (∀ (EPSILON : ℚ) (id channel : Int),
      matchedOffsets EPSILON id channel (gc st).settings = (0, 0)) ∧
    (∀ (EPSILON : ℚ) (binary : Nat → Int),
      (parseCode EPSILON binary (gc st)).mebus_06181.message =
        (parseCode EPSILON binary ⟨[], st.mebus_06181⟩).mebus_06181.message) ∧
    (∀ (EPSILON : ℚ) (binary : Nat → Int), validateChecksum (extractedBits st binary) = 1 →
      (parseCode EPSILON binary (gc st)).mebus_06181.message =
        some ⟨binToDecRev (extractedBits st binary) 0 3,
          binToDecRev (extractedBits st binary) 4 5,
          rawTemperature (extractedBits st binary), rawHumidity (extractedBits st binary)⟩) := by
  have hgc : gc st = ⟨[], st.mebus_06181⟩ := by
    unfold gc
    rw [gcLoop_nil]
  have hnil : gc ⟨[], st.mebus_06181⟩ = ⟨[], st.mebus_06181⟩ := rfl
  refine ⟨by rw [hgc], by rw [hgc], hnil, by rw [hgc, hnil], ?_, ?_, ?_, ?_, ?_⟩
  · intro EPSILON id channel
    rw [hgc]
    rfl
  · intro EPSILON id channel
    rw [hgc]
    rfl
  · intro EPSILON id channel
    rw [hgc]
    rfl
  · intro EPSILON binary
    rw [hgc]
  · intro EPSILON binary hcs
    rw [hgc]
    exact parseCode_no_match EPSILON binary ⟨[], st.mebus_06181⟩ hcs
      (fun _ hr => absurd hr (List.not_mem_nil _))

/-! ## What the decoder and the validator leave unchanged -/

/-- Claim C17. Decoding never changes the settings list: whatever the settings, the
pulse train and the outcome of the checksum, the list after `parseCode` is the list
before it, with no node created on a miss, and the pulse train is as it was; when the
checksum fails the whole state is unchanged. Likewise `validate` returns the state it
received, settings and pulse train included. -/
theorem parseCode_validate_frame (EPSILON : ℚ) (PULSE_DIV : Int) (binary : Nat → Int)
    (st : State) :
    (parseCode EPSILON binary st).settings = st.settings ∧
    (parseCode EPSILON binary st).mebus_06181.rawlen = st.mebus_06181.rawlen ∧
    (parseCode EPSILON binary st).mebus_06181.raw = st.mebus_06181.raw ∧
    (validateChecksum (extractedBits st binary) = 0 ∨
      validateChecksum (extractedBits st binary) = 1) ∧
    (validateChecksum (extractedBits st binary) ≠ 1 → parseCode EPSILON binary st = st) ∧
    (validate PULSE_DIV st).2 = st := by
  have hv : (validate PULSE_DIV st).2 = st := by
    unfold validate
    split_ifs <;> rfl
  rcases validateChecksum_cases (extractedBits st binary) with h0 | h1
  · have hp := parseCode_fail EPSILON binary st h0
    refine ⟨by rw [hp], by rw [hp], by rw [hp], Or.inl h0, fun _ => hp, hv⟩
  · have hp := parseCode_pass EPSILON binary st h1
    refine ⟨by rw [hp]; rfl, by rw [hp]; rfl, by rw [hp]; rfl, Or.inr h1,
      fun hne => absurd h1 hne, hv⟩

/-! ## Field ranges -/

/-- A nibble of a bit sequence, read with `binToDec`, lies between 0 and 15. -/
theorem binToDec_nibble_bounds (b : Nat → Int) (s : Nat)
    (hb : ∀ i, i < 37 → b i = 0 ∨ b i = 1) (hs : s + 3 < 37) :
    0 ≤ binToDec b s (s + 3) ∧ binToDec b s (s + 3) ≤ 15 := by
  have hr : ∀ i, i < 37 → 0 ≤ b i ∧ b i ≤ 1 := by
    intro i hi
    rcases hb i hi with h | h <;> rw [h] <;> decide
  rw [binToDec_nibble]
  have h0 := hr s (by omega)
  have h1 := hr (s + 1) (by omega)
  have h2 := hr (s + 2) (by omega)
  have h3 := hr (s + 3) (by omega)
  constructor <;> omega

/-- Claim C18. For a train of 74 pulses that passes the checksum, the id in the message
is an integer between 0 and 15 and the channel an integer between 0 and 3; when no
settings node matches, the humidity is the integer `10*high + low` with both nibbles
between 0 and 15, so it lies between 0 and 165. -/
theorem parseCode_field_ranges (EPSILON : ℚ) (binary : Nat → Int) (st : State)
    (h : st.mebus_06181.rawlen = 74)
    (hcs : validateChecksum (extractedBits st binary) = 1) :
    (∃ r, (parseCode EPSILON binary st).mebus_06181.message = some r ∧
      0 ≤ r.id ∧ r.id ≤ 15 ∧ 0 ≤ r.channel ∧ r.channel ≤ 3) ∧
    ((∀ r ∈ st.settings,
        ¬ (|r.id - (binToDecRev (extractedBits st binary) 0 3 : Int)| < EPSILON ∧
           |r.channel - (binToDecRev (extractedBits st binary) 4 5 : Int)| < EPSILON)) →
      Option.map SensorReading.humidity (parseCode EPSILON binary st).mebus_06181.message =
        some (((10 * binToDec (extractedBits st binary) 28 31 +
          binToDec (extractedBits st binary) 24 27 : Int) : ℚ)) ∧
      0 ≤ binToDec (extractedBits st binary) 28 31 ∧
      binToDec (extractedBits st binary) 28 31 ≤ 15 ∧
      0 ≤ binToDec (extractedBits st binary) 24 27 ∧
      binToDec (extractedBits st binary) 24 27 ≤ 15 ∧
      0 ≤ 10 * binToDec (extractedBits st binary) 28 31 +
        binToDec (extractedBits st binary) 24 27 ∧
      10 * binToDec (extractedBits st binary) 28 31 +
        binToDec (extractedBits st binary) 24 27 ≤ 165) := by
  have hb := extractedBits_cases st binary h
  have hr : ∀ i, i < 37 → 0 ≤ extractedBits st binary i ∧ extractedBits st binary i ≤ 1 := by
    intro i hi
    rcases hb i hi with h | h <;> rw [h] <;> decide
  constructor
  · rw [parseCode_pass EPSILON binary st hcs]
    refine ⟨_, rfl, ?_⟩
    show 0 ≤ binToDecRev (extractedBits st binary) 0 3 ∧
      binToDecRev (extractedBits st binary) 0 3 ≤ 15 ∧
      0 ≤ binToDecRev (extractedBits st binary) 4 5 ∧
      binToDecRev (extractedBits st binary) 4 5 ≤ 3
    rw [binToDecRev_nibble, binToDecRev_pair]
    have h0 := hr 0 (by omega)
    have h1 := hr 1 (by omega)
    have h2 := hr 2 (by omega)
    have h3 := hr 3 (by omega)
    have h4 := hr 4 (by omega)
    have h5 := hr 5 (by omega)
    simp only [Nat.zero_add, Nat.reduceAdd] at *
    refine ⟨by omega, by omega, by omega, by omega⟩
  · intro hno
    have hhi : 0 ≤ binToDec (extractedBits st binary) 28 31 ∧
        binToDec (extractedBits st binary) 28 31 ≤ 15 :=
      binToDec_nibble_bounds (extractedBits st binary) 28 hb (by omega)
    have hlo : 0 ≤ binToDec (extractedBits st binary) 24 27 ∧
        binToDec (extractedBits st binary) 24 27 ≤ 15 :=
      binToDec_nibble_bounds (extractedBits st binary) 24 hb (by omega)
    obtain ⟨a1, a2⟩ := hhi
    obtain ⟨c1, c2⟩ := hlo
    refine ⟨?_, a1, a2, c1, c2, by omega, by omega⟩
    rw [parseCode_no_match EPSILON binary st hcs hno]
    simp only [Option.map_some', rawHumidity]
    push_cast
    rfl

/-- The frame `frameReading` fulfils the hypotheses of `parseCode_field_ranges`; its
humidity is 10*2 + 5. -/
theorem parseCode_field_ranges_witness :
    (stateReading []).mebus_06181.rawlen = 74 ∧
    validateChecksum (extractedBits (stateReading []) (fun _ => 0)) = 1 ∧
    Option.map SensorReading.humidity
      (parseCode (1 / 100000) (fun _ => 0) (stateReading [])).mebus_06181.message =
        some (((10 * 2 + 5 : Int) : ℚ)) :=
  ⟨rfl, by decide,
    ((parseCode_field_ranges (1 / 100000) (fun _ => 0) (stateReading []) rfl (by decide)).2
      (fun _ hr => absurd hr (List.not_mem_nil _))).1⟩

/-! ## Single-bit errors in the data bits -/

/-- The nibble sum of a sequence of bits is not negative. -/
theorem nibbleSum_nonneg (b : Nat → Int) (hr : ∀ i, i < 32 → 0 ≤ b i ∧ b i ≤ 1) :
    0 ≤ nibbleSum b := by
  rw [nibbleSum_eq]
  have f0 := hr 0 (by omega)
  have f1 := hr 1 (by omega)
  have f2 := hr 2 (by omega)
  have f3 := hr 3 (by omega)
  have f4 := hr 4 (by omega)
  have f5 := hr 5 (by omega)
  have f6 := hr 6 (by omega)
  have f7 := hr 7 (by omega)
  have f8 := hr 8 (by omega)
  have f9 := hr 9 (by omega)
  have f10 := hr 10 (by omega)
  have f11 := hr 11 (by omega)
  have f12 := hr 12 (by omega)
  have f13 := hr 13 (by omega)
  have f14 := hr 14 (by omega)
  have f15 := hr 15 (by omega)
  have f16 := hr 16 (by omega)
  have f17 := hr 17 (by omega)
  have f18 := hr 18 (by omega)
  have f19 := hr 19 (by omega)
  have f20 := hr 20 (by omega)
  have f21 := hr 21 (by omega)
  have f22 := hr 22 (by omega)
  have f23 := hr 23 (by omega)
  have f24 := hr 24 (by omega)
  have f25 := hr 25 (by omega)
  have f26 := hr 26 (by omega)
  have f27 := hr 27 (by omega)
  have f28 := hr 28 (by omega)
  have f29 := hr 29 (by omega)
  have f30 := hr 30 (by omega)
  have f31 := hr 31 (by omega)
  omega

/-- Flipping one of the bits 0-31 changes the nibble sum by 1, 2, 4 or 8 up or down,
which changes its remainder modulo 16. -/
theorem nibbleSum_flip_mod (b : Nat → Int) (hr : ∀ i, i < 32 → 0 ≤ b i ∧ b i ≤ 1)
    (p : Nat) (hp : p < 32) :
    nibbleSum (setBinary b p (1 - b p)) % 16 ≠ nibbleSum b % 16 := by
  rw [nibbleSum_eq, nibbleSum_eq]
  have f0 := hr 0 (by omega)
  have f1 := hr 1 (by omega)
  have f2 := hr 2 (by omega)
  have f3 := hr 3 (by omega)
  have f4 := hr 4 (by omega)
  have f5 := hr 5 (by omega)
  have f6 := hr 6 (by omega)
  have f7 := hr 7 (by omega)
  have f8 := hr 8 (by omega)
  have f9 := hr 9 (by omega)
  have f10 := hr 10 (by omega)
  have f11 := hr 11 (by omega)
  have f12 := hr 12 (by omega)
  have f13 := hr 13 (by omega)
  have f14 := hr 14 (by omega)
  have f15 := hr 15 (by omega)
  have f16 := hr 16 (by omega)
  have f17 := hr 17 (by omega)
  have f18 := hr 18 (by omega)
  have f19 := hr 19 (by omega)
  have f20 := hr 20 (by omega)
  have f21 := hr 21 (by omega)
  have f22 := hr 22 (by omega)
  have f23 := hr 23 (by omega)
  have f24 := hr 24 (by omega)
  have f25 := hr 25 (by omega)
  have f26 := hr 26 (by omega)
  have f27 := hr 27 (by omega)
  have f28 := hr 28 (by omega)
  have f29 := hr 29 (by omega)
  have f30 := hr 30 (by omega)
  have f31 := hr 31 (by omega)
  simp only [setBinary]
  interval_cases p <;> simp <;> omega

/-- Claim C19. For the 37 bits `b` of a train that passes the checksum and a position `p`
in 0..31, the sequence that differs from `b` in bit `p` only fails `validateChecksum`,
and `parseCode` on any train of 74 pulses that carries it leaves the state as it was, so
no reading is produced. -/
theorem data_bit_flip (EPSILON : ℚ) (binary : Nat → Int) (st : State)
    (h : st.mebus_06181.rawlen = 74)
    (hcs : validateChecksum (extractedBits st binary) = 1)
    (p : Nat) (hp : p < 32) :
    validateChecksum
      (setBinary (extractedBits st binary) p (1 - extractedBits st binary p)) = 0 ∧
    (∀ (binary2 : Nat → Int) (st2 : State), st2.mebus_06181.rawlen = 74 →
      (∀ i, i < 37 → extractedBits st2 binary2 i =
        setBinary (extractedBits st binary) p (1 - extractedBits st binary p) i) →
      validateChecksum (extractedBits st2 binary2) = 0 ∧
      parseCode EPSILON binary2 st2 = st2) := by
  have hr : ∀ i, i < 32 →
      0 ≤ extractedBits st binary i ∧ extractedBits st binary i ≤ 1 := by
    intro i hi
    rcases extractedBits_cases st binary h i (by omega) with h0 | h1
    · rw [h0]; decide
    · rw [h1]; decide
  have hr2 : ∀ i, i < 32 →
      0 ≤ setBinary (extractedBits st binary) p (1 - extractedBits st binary p) i ∧
      setBinary (extractedBits st binary) p (1 - extractedBits st binary p) i ≤ 1 := by
    intro i hi
    simp only [setBinary]
    have hp' := hr p hp
    split_ifs
    · constructor <;> omega
    · exact hr i hi
  have hflip : validateChecksum
      (setBinary (extractedBits st binary) p (1 - extractedBits st binary p)) = 0 := by
    have hsum := validateChecksum_one _ hcs
    have hck : binToDec
        (setBinary (extractedBits st binary) p (1 - extractedBits st binary p)) 32 35 =
        binToDec (extractedBits st binary) 32 35 := by
      apply binToDec_congr
      intro i hi _
      simp only [setBinary]
      rw [if_neg (by omega)]
    rw [validateChecksum_eq, hck, ← hsum, if_neg]
    rw [land_15 _ (nibbleSum_nonneg _ hr2), land_15 _ (nibbleSum_nonneg _ hr)]
    exact nibbleSum_flip_mod _ hr p hp
  refine ⟨hflip, ?_⟩
  intro binary2 st2 _ hbits
  have h0 : validateChecksum (extractedBits st2 binary2) = 0 := by
    rw [validateChecksum_congr _ _ hbits]
    exact hflip
  exact ⟨h0, parseCode_fail EPSILON binary2 st2 h0⟩

/-- The frame `frameReading` passes the checksum; `frameDataFlipped` is that frame with
bit 0 flipped, and `parseCode` leaves the state of its train as it was. -/
theorem data_bit_flip_witness :
    (stateReading []).mebus_06181.rawlen = 74 ∧
    validateChecksum (extractedBits (stateReading []) (fun _ => 0)) = 1 ∧
    0 < 32 ∧
    validateChecksum (extractedBits stateDataFlipped (fun _ => 0)) = 0 ∧
    parseCode (1 / 100000) (fun _ => 0) stateDataFlipped = stateDataFlipped :=
  ⟨rfl, by decide, by decide,
    (data_bit_flip (1 / 100000) (fun _ => 0) (stateReading []) rfl (by decide) 0
      (by decide)).2 (fun _ => 0) stateDataFlipped rfl (by decide)⟩

/-! ## Pulses the decoder does not depend on -/

/-- Two trains of 74 pulses whose pulses at the odd indices 1..71 lie on the same side
of the threshold give the same bits 0-35. -/
theorem extractedBits_agree (settings1 settings2 : List settings_t) (p1 p2 : protocol_t)
    (binary1 binary2 : Nat → Int) (h1 : p1.rawlen = 74) (h2 : p2.rawlen = 74)
    (hagree : ∀ x, x % 2 = 1 → 1 ≤ x → x ≤ 71 → (p1.raw x > 3000 ↔ p2.raw x > 3000)) :
    ∀ i, i < 36 →
      extractedBits ⟨settings1, p1⟩ binary1 i = extractedBits ⟨settings2, p2⟩ binary2 i := by
  intro i hi
  have hthr : AVG_PULSE_LENGTH * PULSE_MULTIPLIER = 3000 := by decide
  unfold extractedBits
  rw [fillBinary_bit p1 binary1 h1 i (by omega), fillBinary_bit p2 binary2 h2 i (by omega),
    hthr]
  exact if_congr (hagree (2 * i + 1) (by omega) (by omega) (by omega)) rfl rfl

/-- Claim C20. For every settings list and every two trains of 74 pulses whose pulses at
the odd indices 1..71 lie on the same side of the threshold 3000, `parseCode` has the
same outcome: the checksum test gives the same result for both; when it fails both
states are left as they were, and when it passes both messages are the same reading.
The marks at the even indices, the last pulse `raw[73]`, the content of the local array
at entry and the exact durations do not matter. -/
theorem unused_pulses_noninterference (EPSILON : ℚ) (settings : List settings_t)
    (p1 p2 : protocol_t) (binary1 binary2 : Nat → Int)
    (h1 : p1.rawlen = 74) (h2 : p2.rawlen = 74)
    (hagree : ∀ x, x % 2 = 1 → 1 ≤ x → x ≤ 71 → (p1.raw x > 3000 ↔ p2.raw x > 3000)) :
    validateChecksum (extractedBits ⟨settings, p1⟩ binary1) =
      validateChecksum (extractedBits ⟨settings, p2⟩ binary2) ∧
    (validateChecksum (extractedBits ⟨settings, p1⟩ binary1) = 0 →
      parseCode EPSILON binary1 ⟨settings, p1⟩ = ⟨settings, p1⟩ ∧
      parseCode EPSILON binary2 ⟨settings, p2⟩ = ⟨settings, p2⟩) ∧
    (validateChecksum (extractedBits ⟨settings, p1⟩ binary1) = 1 →
      ∃ r, (parseCode EPSILON binary1 ⟨settings, p1⟩).mebus_06181.message = some r ∧
        (parseCode EPSILON binary2 ⟨settings, p2⟩).mebus_06181.message = some r) := by
  have hbits := extractedBits_agree settings settings p1 p2 binary1 binary2 h1 h2 hagree
  have hv := validateChecksum_congr_data _ _ hbits
  refine ⟨hv, ?_, ?_⟩
  · intro h0
    exact ⟨parseCode_fail EPSILON binary1 ⟨settings, p1⟩ h0,
      parseCode_fail EPSILON binary2 ⟨settings, p2⟩ (hv ▸ h0)⟩
  · intro hp
    rw [parseCode_pass EPSILON binary1 ⟨settings, p1⟩ hp,
      parseCode_pass EPSILON binary2 ⟨settings, p2⟩ (hv ▸ hp)]
    refine ⟨_, rfl, ?_⟩
    simp only [withMessage, rawTemperature, rawHumidity]
    rw [hbits 23 (by omega),
      binToDecRev_congr _ _ 0 3 (fun i _ _ => hbits i (by omega)),
      binToDecRev_congr _ _ 4 5 (fun i _ _ => hbits i (by omega)),
      binToDec_congr _ _ 12 22 (fun i _ _ => hbits i (by omega)),
      binToDec_congr _ _ 28 31 (fun i _ _ => hbits i (by omega)),
      binToDec_congr _ _ 24 27 (fun i _ _ => hbits i (by omega))]

/-- The two trains `trainOf frameReading 8000` and `trainVariant frameReading` differ in
every pulse, in particular in the marks and in the last pulse, and agree on the side of
the threshold at the odd indices 1..71; the checksum test gives the same result for
both. -/
theorem unused_pulses_noninterference_witness :
    (trainOf frameReading 8000).rawlen = 74 ∧ (trainVariant frameReading).rawlen = 74 ∧
    (trainOf frameReading 8000).raw 0 ≠ (trainVariant frameReading).raw 0 ∧
    (trainOf frameReading 8000).raw 73 ≠ (trainVariant frameReading).raw 73 ∧
    validateChecksum (extractedBits ⟨[], trainOf frameReading 8000⟩ (fun _ => 0)) =
      validateChecksum (extractedBits ⟨[], trainVariant frameReading⟩ (fun _ => 7)) :=
  ⟨rfl, rfl, by decide, by decide,
    (unused_pulses_noninterference (1 / 100000) [] (trainOf frameReading 8000)
      (trainVariant frameReading) (fun _ => 0) (fun _ => 7) rfl rfl
      (fun x hodd _ hhi =>
        (show ∀ y, y < 72 → y % 2 = 1 →
            ((trainOf frameReading 8000).raw y > 3000 ↔ (trainVariant frameReading).raw y > 3000)
          by decide) x (by omega) hodd)).1⟩

/-! ## The settings list: insertion -/

/-- The scan of `checkValues` ends with `match` at 0 or 1. -/
theorem settingsMatch_cases (EPSILON id channel : ℚ) (settings : List settings_t) :
    settingsMatch EPSILON id channel settings = 0 ∨
      settingsMatch EPSILON id channel settings = 1 := by
  induction settings with
  | nil => exact Or.inl rfl
  | cons tmp next ih =>
    rw [settingsMatch]
    split_ifs
    · exact Or.inr rfl
    · exact ih

/-- The scan of `checkValues` ends with `match` at 0 exactly when no node matches. -/
theorem settingsMatch_eq_zero_iff (EPSILON id channel : ℚ) (settings : List settings_t) :
    settingsMatch EPSILON id channel settings = 0 ↔
      ∀ r ∈ settings, ¬ (|r.id - id| < EPSILON ∧ |r.channel - channel| < EPSILON) := by
  induction settings with
  | nil => simp [settingsMatch]
  | cons tmp next ih =>
    rw [settingsMatch]
    by_cases hc : |tmp.id - id| < EPSILON ∧ |tmp.channel - channel| < EPSILON
    · rw [if_pos hc]
      constructor
      · intro h1
        exact absurd h1 (by decide)
      · intro hall
        exact absurd hc (hall tmp (List.mem_cons_self tmp next))
    · rw [if_neg hc, ih]
      constructor
      · intro hall r hr
        rcases List.mem_cons.mp hr with rfl | hr'
        · exact hc
        · exact hall r hr'
      · intro hall r hr
        exact hall r (List.mem_cons_of_mem tmp hr)

/-- A lookup stops at a matching head. -/
theorem lookup_cons_match (EPSILON id channel : ℚ) (r : settings_t) (rest : List settings_t)
    (h : |r.id - id| < EPSILON ∧ |r.channel - channel| < EPSILON) :
    lookup EPSILON id channel (r :: rest) = some (r.temp, r.humi) := by
  simp [lookup, scanMatch, List.find?, h]

/-- A lookup passes over a head that does not match. -/
theorem lookup_cons_no_match (EPSILON id channel : ℚ) (r : settings_t)
    (rest : List settings_t)
    (h : ¬ (|r.id - id| < EPSILON ∧ |r.channel - channel| < EPSILON)) :
    lookup EPSILON id channel (r :: rest) = lookup EPSILON id channel rest := by
  simp only [lookup, scanMatch, List.find?, h, decide_False]

/-- The scan of the decoder is the lookup of the decoded key. -/
theorem firstMatch_eq_scanMatch (EPSILON : ℚ) (id channel : Int) (settings : List settings_t) :
    firstMatch EPSILON id channel settings = scanMatch EPSILON id channel settings := rfl

/-- Without a member `id` the function `checkValues` changes nothing. -/
theorem checkValues_no_member (EPSILON : ℚ) (jvalues : JsonNode) (st : State)
    (hj : json_find_member jvalues "id" = none) :
    checkValues EPSILON jvalues st = (0, st) := by
  unfold checkValues
  rw [hj]

/-- When a node matches the key of the configuration, `checkValues` changes nothing. -/
theorem checkValues_match (EPSILON : ℚ) (jvalues jid : JsonNode) (st : State)
    (hj : json_find_member jvalues "id" = some jid)
    (hm : settingsMatch EPSILON (checkValuesKey jid).1 (checkValuesKey jid).2 st.settings ≠ 0) :
    checkValues EPSILON jvalues st = (0, st) := by
  unfold checkValues
  rw [hj]
  simp only [hm, if_false]

/-- When no node matches the key of the configuration, `checkValues` puts a new node at
the head of the list. -/
theorem checkValues_insert (EPSILON : ℚ) (jvalues jid : JsonNode) (st : State)
    (hj : json_find_member jvalues "id" = some jid)
    (hm : settingsMatch EPSILON (checkValuesKey jid).1 (checkValuesKey jid).2 st.settings = 0) :
    checkValues EPSILON jvalues st =
      (0, ⟨⟨(checkValuesKey jid).1, (checkValuesKey jid).2,
          (json_find_number jvalues "temperature-offset").getD 0,
          (json_find_number jvalues "humidity-offset").getD 0⟩ :: st.settings,
        st.mebus_06181⟩) := by
  unfold checkValues
  rw [hj]
  simp only [hm, if_true]
  cases json_find_number jvalues "temperature-offset" <;>
    cases json_find_number jvalues "humidity-offset" <;> rfl

/-- The function `checkValues` always returns 0. -/
theorem checkValues_returns (EPSILON : ℚ) (jvalues : JsonNode) (st : State) :
    (checkValues EPSILON jvalues st).1 = 0 := by
  unfold checkValues
  cases json_find_member jvalues "id" with
  | none => rfl
  | some jid =>
    simp only []
    split_ifs <;> rfl

/-- Claim C15. For a settings list in which no node matches the key (id, channel) of the
configuration, `checkValues` returns 0 and adds exactly one node, with that id and
channel and with the offsets of the configuration, each 0 when it is not given; the
nodes that were present are unchanged, as is the protocol object; and a lookup of
(id, channel) in the new list returns exactly those offsets. -/
theorem checkValues_insert_lookup (EPSILON : ℚ) (hε : 0 < EPSILON) (jvalues jid : JsonNode)
    (st : State) (hj : json_find_member jvalues "id" = some jid)
    (hno : ∀ r ∈ st.settings,
      ¬ (|r.id - (checkValuesKey jid).1| < EPSILON ∧
         |r.channel - (checkValuesKey jid).2| < EPSILON)) :
    (checkValues EPSILON jvalues st).1 = 0 ∧
    (checkValues EPSILON jvalues st).2.settings =
      ⟨(checkValuesKey jid).1, (checkValuesKey jid).2,
        (json_find_number jvalues "temperature-offset").getD 0,
        (json_find_number jvalues "humidity-offset").getD 0⟩ :: st.settings ∧
    (checkValues EPSILON jvalues st).2.settings.length = st.settings.length + 1 ∧
    (checkValues EPSILON jvalues st).2.mebus_06181 = st.mebus_06181 ∧
    lookup EPSILON (checkValuesKey jid).1 (checkValuesKey jid).2
      (checkValues EPSILON jvalues st).2.settings =
        some ((json_find_number jvalues "temperature-offset").getD 0,
          (json_find_number jvalues "humidity-offset").getD 0) := by
  have hm := (settingsMatch_eq_zero_iff EPSILON _ _ st.settings).mpr hno
  have hc := checkValues_insert EPSILON jvalues jid st hj hm
  rw [hc]
  refine ⟨rfl, rfl, rfl, rfl, ?_⟩
  exact lookup_cons_match EPSILON _ _ _ _ (by simpa using hε)

/-- The configuration with id 3, channel 1 and the offsets -1 and 2, ingested into the
empty settings list, fulfils the hypotheses of `checkValues_insert_lookup`; the list
becomes the single node (3, 1, -1, 2). -/
theorem checkValues_insert_lookup_witness :
    (0 : ℚ) < 1 / 100000 ∧
    (checkValues (1 / 100000) (configOf 3 1 (offsetMembers (-1) 2)) (stateReading [])).2.settings =
      [⟨3, 1, -1, 2⟩] :=
  ⟨by norm_num,
    (checkValues_insert_lookup (1 / 100000) (by norm_num) (configOf 3 1 (offsetMembers (-1) 2))
      (.node "id" false 0 [.node "" false 0 [.node "id" true 3 [], .node "channel" true 1 []]])
      (stateReading []) rfl (fun _ hr => absurd hr (List.not_mem_nil _))).2.1⟩

/-- Claim C12. When `checkValues` is called with a configuration for the key
(id, channel) and then with another configuration for the same key, whatever the offsets
of the two, the second call leaves the settings list exactly as the first call left it,
and the whole state with it. A lookup of (id, channel) afterwards returns what it
returned after the first call: the offsets of the first configuration when no node
matched the key before the first call, and otherwise the offsets of the node that
matched already; the offsets of the second configuration are stored nowhere. -/
theorem checkValues_idempotent (EPSILON : ℚ) (hε : 0 < EPSILON)
    (jvalues1 jvalues2 jid1 jid2 : JsonNode) (st : State)
    (hj1 : json_find_member jvalues1 "id" = some jid1)
    (hj2 : json_find_member jvalues2 "id" = some jid2)
    (hkey : checkValuesKey jid2 = checkValuesKey jid1) :
    (checkValues EPSILON jvalues2 (checkValues EPSILON jvalues1 st).2).2 =
      (checkValues EPSILON jvalues1 st).2 ∧
    (checkValues EPSILON jvalues2 (checkValues EPSILON jvalues1 st).2).1 = 0 ∧
    lookup EPSILON (checkValuesKey jid1).1 (checkValuesKey jid1).2
      (checkValues EPSILON jvalues2 (checkValues EPSILON jvalues1 st).2).2.settings =
      lookup EPSILON (checkValuesKey jid1).1 (checkValuesKey jid1).2
        (checkValues EPSILON jvalues1 st).2.settings ∧
    ((∀ r ∈ st.settings,
        ¬ (|r.id - (checkValuesKey jid1).1| < EPSILON ∧
           |r.channel - (checkValuesKey jid1).2| < EPSILON)) →
      lookup EPSILON (checkValuesKey jid1).1 (checkValuesKey jid1).2
        (checkValues EPSILON jvalues2 (checkValues EPSILON jvalues1 st).2).2.settings =
        some ((json_find_number jvalues1 "temperature-offset").getD 0,
          (json_find_number jvalues1 "humidity-offset").getD 0)) ∧
    (¬ (∀ r ∈ st.settings,
        ¬ (|r.id - (checkValuesKey jid1).1| < EPSILON ∧
           |r.channel - (checkValuesKey jid1).2| < EPSILON)) →
      lookup EPSILON (checkValuesKey jid1).1 (checkValuesKey jid1).2
        (checkValues EPSILON jvalues2 (checkValues EPSILON jvalues1 st).2).2.settings =
        lookup EPSILON (checkValuesKey jid1).1 (checkValuesKey jid1).2 st.settings) := by
  have hsecond : (checkValues EPSILON jvalues2 (checkValues EPSILON jvalues1 st).2).2 =
      (checkValues EPSILON jvalues1 st).2 := by
    rcases settingsMatch_cases EPSILON (checkValuesKey jid1).1 (checkValuesKey jid1).2
      st.settings with h0 | h1
    · rw [checkValues_insert EPSILON jvalues1 jid1 st hj1 h0]
      rw [checkValues_match EPSILON jvalues2 jid2 _ hj2]
      rw [hkey]
      intro hzero
      have hall := (settingsMatch_eq_zero_iff EPSILON _ _ _).mp hzero
      exact hall _ (List.mem_cons_self _ _) (by simpa using hε)
    · have hne : settingsMatch EPSILON (checkValuesKey jid1).1 (checkValuesKey jid1).2
          st.settings ≠ 0 := by
        rw [h1]; decide
      rw [checkValues_match EPSILON jvalues1 jid1 st hj1 hne]
      rw [checkValues_match EPSILON jvalues2 jid2 st hj2 (by rw [hkey]; exact hne)]
  refine ⟨hsecond, checkValues_returns _ _ _, by rw [hsecond], ?_, ?_⟩
  · intro hno
    rw [hsecond]
    have hm := (settingsMatch_eq_zero_iff EPSILON _ _ st.settings).mpr hno
    rw [checkValues_insert EPSILON jvalues1 jid1 st hj1 hm]
    exact lookup_cons_match EPSILON _ _ _ _ (by simpa using hε)
  · intro hsome
    rw [hsecond]
    have hne : settingsMatch EPSILON (checkValuesKey jid1).1 (checkValuesKey jid1).2
        st.settings ≠ 0 :=
      fun hz => hsome ((settingsMatch_eq_zero_iff EPSILON _ _ st.settings).mp hz)
    rw [checkValues_match EPSILON jvalues1 jid1 st hj1 hne]

/-- Two configurations for the key (3, 1), the first with the offsets -1 and 2 and the
second with the offsets 5 and 7, ingested one after the other into the empty settings
list, fulfil the hypotheses of `checkValues_idempotent`; a lookup of (3, 1) afterwards
returns (-1, 2). -/
theorem checkValues_idempotent_witness :
    (0 : ℚ) < 1 / 100000 ∧
    lookup (1 / 100000) 3 1
      (checkValues (1 / 100000) (configOf 3 1 (offsetMembers 5 7))
        (checkValues (1 / 100000) (configOf 3 1 (offsetMembers (-1) 2))
          (stateReading [])).2).2.settings = some (-1, 2) :=
  ⟨by norm_num,
    (checkValues_idempotent (1 / 100000) (by norm_num) (configOf 3 1 (offsetMembers (-1) 2))
      (configOf 3 1 (offsetMembers 5 7))
      (.node "id" false 0 [.node "" false 0 [.node "id" true 3 [], .node "channel" true 1 []]])
      (.node "id" false 0 [.node "" false 0 [.node "id" true 3 [], .node "channel" true 1 []]])
      (stateReading []) rfl rfl rfl).2.2.2.1 (fun _ hr => absurd hr (List.not_mem_nil _))⟩

/-! ## The settings list: one node per key -/

/-- Being for the same key is symmetric. -/
theorem sameKey_symm (EPSILON : ℚ) (r1 r2 : settings_t) (h : sameKey EPSILON r1 r2) :
    sameKey EPSILON r2 r1 := by
  unfold sameKey at *
  rw [abs_sub_comm r2.id, abs_sub_comm r2.channel]
  exact h

/-- The function `checkValues` keeps the nodes of the list pairwise for different keys. -/
theorem checkValues_pairwise (EPSILON : ℚ) (jvalues : JsonNode) (st : State)
    (h : List.Pairwise (fun r1 r2 => ¬ sameKey EPSILON r1 r2) st.settings) :
    List.Pairwise (fun r1 r2 => ¬ sameKey EPSILON r1 r2)
      (checkValues EPSILON jvalues st).2.settings := by
  cases hj : json_find_member jvalues "id" with
  | none =>
    rw [checkValues_no_member EPSILON jvalues st hj]
    exact h
  | some jid =>
    rcases settingsMatch_cases EPSILON (checkValuesKey jid).1 (checkValuesKey jid).2
      st.settings with h0 | h1
    · rw [checkValues_insert EPSILON jvalues jid st hj h0]
      refine List.Pairwise.cons ?_ h
      intro r hr hsame
      have hall := (settingsMatch_eq_zero_iff EPSILON (checkValuesKey jid).1
        (checkValuesKey jid).2 st.settings).mp h0
      have hs := sameKey_symm EPSILON _ _ hsame
      unfold sameKey at hs
      exact hall r hr hs
    · have hne : settingsMatch EPSILON (checkValuesKey jid).1 (checkValuesKey jid).2
          st.settings ≠ 0 := by
        rw [h1]; decide
      rw [checkValues_match EPSILON jvalues jid st hj hne]
      exact h

/-- Every sequence of calls keeps the nodes of the list pairwise for different keys. -/
theorem runCalls_pairwise (EPSILON : ℚ) :
    ∀ (calls : List Call) (st : State),
      List.Pairwise (fun r1 r2 => ¬ sameKey EPSILON r1 r2) st.settings →
      List.Pairwise (fun r1 r2 => ¬ sameKey EPSILON r1 r2)
        (runCalls EPSILON calls st).settings := by
  intro calls
  induction calls with
  | nil => intro st h; exact h
  | cons c rest ih =>
    intro st h
    cases c with
    | checkValues jvalues =>
      rw [runCalls]
      exact ih _ (checkValues_pairwise EPSILON jvalues st h)
    | gc =>
      rw [runCalls]
      apply ih
      unfold gc
      rw [gcLoop_nil]
      exact List.Pairwise.nil

/-- Claim C13. Starting from the empty settings list, after every finite sequence of
calls of `checkValues` and `gc`, with any configurations, the list holds at most one
node per key: no two nodes at different positions have ids within `EPSILON` of each
other and channels within `EPSILON` of each other. -/
theorem settings_one_per_key (EPSILON : ℚ) (calls : List Call) (p : protocol_t) :
    List.Pairwise (fun r1 r2 => ¬ sameKey EPSILON r1 r2)
      (runCalls EPSILON calls ⟨[], p⟩).settings ∧
    ∀ (i j : Nat) (hi : i < (runCalls EPSILON calls ⟨[], p⟩).settings.length)
      (hj : j < (runCalls EPSILON calls ⟨[], p⟩).settings.length), i ≠ j →
      ¬ (|((runCalls EPSILON calls ⟨[], p⟩).settings.get ⟨i, hi⟩).id -
            ((runCalls EPSILON calls ⟨[], p⟩).settings.get ⟨j, hj⟩).id| < EPSILON ∧
         |((runCalls EPSILON calls ⟨[], p⟩).settings.get ⟨i, hi⟩).channel -
            ((runCalls EPSILON calls ⟨[], p⟩).settings.get ⟨j, hj⟩).channel| < EPSILON) := by
  have hp := runCalls_pairwise EPSILON calls ⟨[], p⟩ List.Pairwise.nil
  refine ⟨hp, ?_⟩
  intro i j hi hj hij
  have hget := List.pairwise_iff_getElem.mp hp
  rcases Nat.lt_or_gt_of_ne hij with hlt | hgt
  · exact hget i j hi hj hlt
  · intro hsame
    exact hget j i hj hi hgt (sameKey_symm EPSILON _ _ hsame)

/-! ## The settings list: order of insertion -/

/-- The scan of the decoder stops at a matching head. -/
theorem firstMatch_cons_match (EPSILON : ℚ) (id channel : Int) (r : settings_t)
    (rest : List settings_t)
    (h : |r.id - id| < EPSILON ∧ |r.channel - channel| < EPSILON) :
    firstMatch EPSILON id channel (r :: rest) = some r := by
  simp [firstMatch, List.find?, h]

/-- Claim C14, amended. When `checkValues` finds no matching node, it puts the new node
at the head of the list: in the resulting list the new node is first in scan order and
every node that was present keeps its order and comes one position later. So for every
key of the decoder that is within `EPSILON` of the new node, the scan of the decoder
returns the offsets of the new node, whatever earlier nodes the key is also within
`EPSILON` of. -/
theorem checkValues_prepends (EPSILON : ℚ) (jvalues jid : JsonNode) (st : State)
    (hj : json_find_member jvalues "id" = some jid)
    (hno : ∀ r ∈ st.settings,
      ¬ (|r.id - (checkValuesKey jid).1| < EPSILON ∧
         |r.channel - (checkValuesKey jid).2| < EPSILON)) :
    (checkValues EPSILON jvalues st).2.settings =
      ⟨(checkValuesKey jid).1, (checkValuesKey jid).2,
        (json_find_number jvalues "temperature-offset").getD 0,
        (json_find_number jvalues "humidity-offset").getD 0⟩ :: st.settings ∧
    (checkValues EPSILON jvalues st).2.settings[0]? =
      some ⟨(checkValuesKey jid).1, (checkValuesKey jid).2,
        (json_find_number jvalues "temperature-offset").getD 0,
        (json_find_number jvalues "humidity-offset").getD 0⟩ ∧
    (∀ i, (checkValues EPSILON jvalues st).2.settings[i + 1]? = st.settings[i]?) ∧
    (∀ (id channel : Int) (th : ℚ × ℚ),
      (|(checkValuesKey jid).1 - id| < EPSILON ∧ |(checkValuesKey jid).2 - channel| < EPSILON) →
      firstMatch EPSILON id channel (checkValues EPSILON jvalues st).2.settings =
        some ⟨(checkValuesKey jid).1, (checkValuesKey jid).2,
          (json_find_number jvalues "temperature-offset").getD 0,
          (json_find_number jvalues "humidity-offset").getD 0⟩ ∧
      matchedOffsets EPSILON id channel (checkValues EPSILON jvalues st).2.settings =
        ((json_find_number jvalues "temperature-offset").getD 0,
          (json_find_number jvalues "humidity-offset").getD 0) ∧
      applySettings EPSILON id channel (checkValues EPSILON jvalues st).2.settings th =
        (th.1 + (json_find_number jvalues "temperature-offset").getD 0,
          th.2 + (json_find_number jvalues "humidity-offset").getD 0)) := by
  have hm := (settingsMatch_eq_zero_iff EPSILON _ _ st.settings).mpr hno
  rw [checkValues_insert EPSILON jvalues jid st hj hm]
  refine ⟨rfl, by simp, fun i => by simp, ?_⟩
  intro id channel th hkey
  have hfirst := firstMatch_cons_match EPSILON id channel
    ⟨(checkValuesKey jid).1, (checkValuesKey jid).2,
      (json_find_number jvalues "temperature-offset").getD 0,
      (json_find_number jvalues "humidity-offset").getD 0⟩ st.settings hkey
  refine ⟨hfirst, ?_, ?_⟩
  · show matchedOffsets EPSILON id channel _ = _
    rw [matchedOffsets, hfirst]
  · show applySettings EPSILON id channel _ th = _
    rw [applySettings_firstMatch, hfirst]

/-- The configuration `configLater`, ingested into the settings list that holds
`nodeEarlier`, fulfils the hypotheses of `checkValues_prepends`: the new node
`nodeLater` comes first and `nodeEarlier` second. -/
theorem checkValues_prepends_witness :
    json_find_member configLater "id" = some configLaterId ∧
    (checkValues (1 / 100000) configLater (stateReading [nodeEarlier])).2.settings =
      [nodeLater, nodeEarlier] :=
  ⟨rfl,
    (checkValues_prepends (1 / 100000) configLater configLaterId (stateReading [nodeEarlier])
      rfl
      (by
        intro r hr
        rw [show r = nodeEarlier from List.mem_singleton.mp hr]
        show ¬ (|nodeEarlier.id - (3 + 6 / 1000000)| < (1 / 100000 : ℚ) ∧
          |nodeEarlier.channel - 1| < (1 / 100000 : ℚ))
        norm_num [nodeEarlier, abs_lt])).1⟩

/-- Claim C14 as stated fails. The settings list holds `nodeEarlier` and the
configuration `configLater` matches no node, so `checkValues` inserts `nodeLater`: the
list becomes `nodeLater`, `nodeEarlier`, not `nodeEarlier`, `nodeLater`, and the node that
was present is now second in scan order. The key (3, 1) is within `EPSILON` of both
nodes, and the scan of the decoder returns the offsets (2, 2) of the node inserted
later, not the offsets (1, 1) of the node inserted earlier: the frame `frameReading`
decodes to temperature 17.0 and humidity 27.0. -/
theorem checkValues_appends_counterexample :
    (∀ r ∈ (stateReading [nodeEarlier]).settings,
      ¬ (|r.id - (3 + 6 / 1000000)| < (1 / 100000 : ℚ) ∧ |r.channel - 1| < (1 / 100000 : ℚ))) ∧
    (checkValues (1 / 100000) configLater (stateReading [nodeEarlier])).2.settings =
      [nodeLater, nodeEarlier] ∧
    (checkValues (1 / 100000) configLater (stateReading [nodeEarlier])).2.settings ≠
      (stateReading [nodeEarlier]).settings ++ [nodeLater] ∧
    (|nodeEarlier.id - ((3 : Int) : ℚ)| < (1 / 100000 : ℚ) ∧
      |nodeEarlier.channel - ((1 : Int) : ℚ)| < (1 / 100000 : ℚ)) ∧
    (|nodeLater.id - ((3 : Int) : ℚ)| < (1 / 100000 : ℚ) ∧
      |nodeLater.channel - ((1 : Int) : ℚ)| < (1 / 100000 : ℚ)) ∧
    matchedOffsets (1 / 100000) 3 1
      (checkValues (1 / 100000) configLater (stateReading [nodeEarlier])).2.settings =
        (nodeLater.temp, nodeLater.humi) ∧
    (nodeLater.temp, nodeLater.humi) ≠ (nodeEarlier.temp, nodeEarlier.humi) ∧
    (parseCode (1 / 100000) (fun _ => 0)
      (checkValues (1 / 100000) configLater (stateReading [nodeEarlier])).2).mebus_06181.message =
        some ⟨3, 1, 17, 27⟩ := by
  have hno : ∀ r ∈ (stateReading [nodeEarlier]).settings,
      ¬ (|r.id - (3 + 6 / 1000000)| < (1 / 100000 : ℚ) ∧
        |r.channel - 1| < (1 / 100000 : ℚ)) := by
    intro r hr
    rw [show r = nodeEarlier from List.mem_singleton.mp hr]
    norm_num [nodeEarlier, abs_lt]
  have hst : (checkValues (1 / 100000) configLater (stateReading [nodeEarlier])).2 =
      stateReading [nodeLater, nodeEarlier] := by
    rw [checkValues_insert (1 / 100000) configLater configLaterId (stateReading [nodeEarlier])
      rfl ((settingsMatch_eq_zero_iff _ _ _ _).mpr hno)]
    rfl
  have hearlier : |nodeEarlier.id - ((3 : Int) : ℚ)| < (1 / 100000 : ℚ) ∧
      |nodeEarlier.channel - ((1 : Int) : ℚ)| < (1 / 100000 : ℚ) := by
    norm_num [nodeEarlier, abs_lt]
  have hlater : |nodeLater.id - ((3 : Int) : ℚ)| < (1 / 100000 : ℚ) ∧
      |nodeLater.channel - ((1 : Int) : ℚ)| < (1 / 100000 : ℚ) := by
    norm_num [nodeLater, abs_lt]
  have hcs : validateChecksum
      (extractedBits (stateReading [nodeLater, nodeEarlier]) (fun _ => 0)) = 1 := by decide
  have hid : binToDecRev
      (extractedBits (stateReading [nodeLater, nodeEarlier]) (fun _ => 0)) 0 3 = 3 := by decide
  have hch : binToDecRev
      (extractedBits (stateReading [nodeLater, nodeEarlier]) (fun _ => 0)) 4 5 = 1 := by decide
  have ht : binToDec
      (extractedBits (stateReading [nodeLater, nodeEarlier]) (fun _ => 0)) 12 22 = 150 := by
    decide
  have hs : extractedBits (stateReading [nodeLater, nodeEarlier]) (fun _ => 0) 23 = 0 := by
    decide
  have hhi : binToDec
      (extractedBits (stateReading [nodeLater, nodeEarlier]) (fun _ => 0)) 28 31 = 2 := by
    decide
  have hlo : binToDec
      (extractedBits (stateReading [nodeLater, nodeEarlier]) (fun _ => 0)) 24 27 = 5 := by
    decide
  refine ⟨hno, by rw [hst]; rfl, ?_, hearlier, hlater, ?_, ?_, ?_⟩
  · rw [hst]
    intro heq
    have h0 : nodeLater.temp = nodeEarlier.temp := by
      have := congrArg (fun l => (l.map settings_t.temp)) heq
      simp [stateReading] at this
      exact this.1
    norm_num [nodeLater, nodeEarlier] at h0
  · rw [hst]
    show matchedOffsets (1 / 100000) 3 1 [nodeLater, nodeEarlier] = _
    have hfirst : firstMatch (1 / 100000) 3 1 [nodeLater, nodeEarlier] = some nodeLater :=
      firstMatch_cons_match (1 / 100000) 3 1 nodeLater [nodeEarlier] hlater
    rw [matchedOffsets, hfirst]
  · intro heq
    have h0 : nodeLater.temp = nodeEarlier.temp := congrArg Prod.fst heq
    norm_num [nodeLater, nodeEarlier] at h0
  · rw [hst, parseCode_pass (1 / 100000) (fun _ => 0) _ hcs, hid, hch]
    have happ : applySettings (1 / 100000) 3 1 (stateReading [nodeLater, nodeEarlier]).settings
        (rawTemperature (extractedBits (stateReading [nodeLater, nodeEarlier]) (fun _ => 0)),
          rawHumidity (extractedBits (stateReading [nodeLater, nodeEarlier]) (fun _ => 0))) =
        (17, 27) := by
      rw [show (stateReading [nodeLater, nodeEarlier]).settings = [] ++ nodeLater :: [nodeEarlier]
        from rfl]
      rw [applySettings_append_match (1 / 100000) 3 1 _ nodeLater [nodeEarlier] hlater []
        (fun _ hq => absurd hq (List.not_mem_nil _))]
      rw [rawTemperature_eq _ (Or.inl hs), ht, hs, rawHumidity, hhi, hlo]
      norm_num [nodeLater]
    rw [happ]
    rfl

end Mebus06181
